import Mathlib

/-! # bsky: a command-line client printing a user's public post feed

Verification development for `main.go`.

Go values are embedded as follows.

* A Go `string` is a Lean `String` (UTF-8 text); `int` is `Int`, with the 64-bit range made
  explicit where a conversion can fail.
* Standard output and standard error are logs: a list holding the text of every write, in
  order.  Each `fmt.Printf` / `fmt.Println` / `fmt.Fprintf` call of the source appends one
  entry; the byte stream is the concatenation of the entries.
* Library functions used by the program (`strconv`, `net/url`, `encoding/json`) are modelled
  from their documented behaviour, under the namespace of their package.
* The network (`http.Get`) and the operating system (`filepath.Base`) are parameters, collected
  in `Env`.
* A run of `main` is summed up in an `Outcome`: the two logs, the calls of
  `fetchUserPostsPublic`, the URLs requested, and the way the process ended (`os.Exit`, a
  return from `main`, or a run-time panic).
-/

set_option autoImplicit false

deriving instance DecidableEq for Except

/-! ## strconv -/

namespace strconv

/-- Go `strconv.Itoa` (also the `%d` verb of `fmt`): decimal text of an integer, with a
leading minus sign for negative values. -/
def Itoa (i : Int) : String :=
  if i < 0 then "-" ++ String.mk (Nat.toDigits 10 (-i).toNat)
  else String.mk (Nat.toDigits 10 i.toNat)

/-- The two failure causes of Go `strconv.NumError`. -/
inductive NumError where
  | ErrSyntax
  | ErrRange
  deriving DecidableEq, Repr

/-- Value of a run of decimal digits on top of the accumulator `acc`; `none` when a character is
not a decimal digit (the digit loop of `strconv.ParseUint` for base 10). -/
def digitsValue : List Char → Nat → Option Nat
  | [], acc => some acc
  | c :: cs, acc =>
    if '0' ≤ c ∧ c ≤ '9' then digitsValue cs (acc * 10 + (c.toNat - '0'.toNat)) else none

/-- Go `strconv.ParseInt(s, 10, 64)`: an optional sign followed by one or more decimal digits,
denoting a value in the range of a 64-bit signed integer. -/
def ParseInt (s : String) : Except NumError Int :=
  match s.data with
  | [] => .error .ErrSyntax
  | c :: cs =>
    let neg := c == '-'
    let ds := if c == '+' ∨ c == '-' then cs else c :: cs
    match ds with
    | [] => .error .ErrSyntax
    | d :: ds' =>
      match digitsValue (d :: ds') 0 with
      | none => .error .ErrSyntax
      | some un =>
        if ¬ neg ∧ un ≥ 2 ^ 63 then .error .ErrRange
        else if neg ∧ un > 2 ^ 63 then .error .ErrRange
        else .ok (if neg then - (un : Int) else (un : Int))

/-- Go `strconv.Atoi`: `ParseInt(s, 10, 0)` converted to `int` (64 bits).  The fast path that
`Atoi` takes for short inputs accepts the same texts with the same values. -/
def Atoi (s : String) : Except NumError Int := ParseInt s

end strconv

/-! ## net/url -/

namespace url

/-- Bytes that `QueryEscape` leaves as they are: ASCII letters and digits and the four marks
`-`, `_`, `.`, `~` (the negation of `shouldEscape` in mode `encodeQueryComponent`). -/
def unreserved (b : UInt8) : Bool :=
  (97 ≤ b.toNat ∧ b.toNat ≤ 122) ∨ (65 ≤ b.toNat ∧ b.toNat ≤ 90) ∨ (48 ≤ b.toNat ∧ b.toNat ≤ 57)
    ∨ b.toNat = 45 ∨ b.toNat = 95 ∨ b.toNat = 46 ∨ b.toNat = 126

/-- The upper-case hexadecimal digit of a value below 16 (`upperhex`). -/
def upperhex (n : Nat) : Char :=
  if n < 10 then Char.ofNat (48 + n) else Char.ofNat (55 + n)

/-- Escaping of one byte: kept, turned into `+` (space), or written `%XX`. -/
def escapeByte (b : UInt8) : List Char :=
  if unreserved b then [Char.ofNat b.toNat]
  else if b.toNat = 32 then ['+']
  else ['%', upperhex (b.toNat / 16), upperhex (b.toNat % 16)]

/-- The bytes of a Go string: the UTF-8 encoding of its characters. -/
def bytes (s : String) : List UInt8 := s.data.flatMap String.utf8EncodeChar

/-- Go `url.QueryEscape`. -/
def QueryEscape (s : String) : String := String.mk ((bytes s).flatMap escapeByte)

/-- Value of a hexadecimal digit in either case (`ishex` and `unhex`). -/
def unhex (c : Char) : Option Nat :=
  if '0' ≤ c ∧ c ≤ '9' then some (c.toNat - 48)
  else if 'a' ≤ c ∧ c ≤ 'f' then some (c.toNat - 87)
  else if 'A' ≤ c ∧ c ≤ 'F' then some (c.toNat - 55)
  else none

/-- The byte string denoted by escaped text: `%XX` is one byte, `+` is a space, any other
character stands for itself; `none` when a `%` is not followed by two hexadecimal digits. -/
def unescape : List Char → Option (List UInt8)
  | [] => some []
  | '%' :: h :: l :: rest =>
    match unhex h, unhex l with
    | some a, some b => (unescape rest).map (fun bs => UInt8.ofNat (a * 16 + b) :: bs)
    | _, _ => none
  | '%' :: _ => none
  | '+' :: rest => (unescape rest).map (fun bs => 32 :: bs)
  | c :: rest => (unescape rest).map (fun bs => String.utf8EncodeChar c ++ bs)

/-- Go `url.QueryUnescape`, returning the bytes of the decoded string. -/
def QueryUnescape (s : String) : Option (List UInt8) := unescape s.data

/-- Go `strings.Cut` for a separator of one character: the text before the first separator
and the text after it (all of the text and nothing when there is no separator). -/
def cut (sep : Char) : List Char → List Char × List Char
  | [] => ([], [])
  | c :: cs => if c = sep then ([], cs) else (c :: (cut sep cs).1, (cut sep cs).2)

/-- The successive values of `key` in the loop of `parseQuery`: the pieces of the query between
the `&` separators. -/
def pieces : List Char → List (List Char)
  | [] => []
  | c :: cs =>
    if c = '&' then [] :: pieces cs
    else
      match pieces cs with
      | [] => [[c]]
      | p :: ps => (c :: p) :: ps

/-- One pass of the loop of `parseQuery` on a piece: `none` when the piece is skipped (it is
empty) or rejected (it holds a semicolon, or an escape is malformed), else the decoded key and
value.  The flag tells whether the piece was rejected. -/
def parsePiece (piece : List Char) : Option (List UInt8 × List UInt8) × Bool :=
  if ';' ∈ piece then (none, true)
  else if piece = [] then (none, false)
  else
    match unescape (cut '=' piece).1, unescape (cut '=' piece).2 with
    | some k, some v => (some (k, v), false)
    | _, _ => (none, true)

/-- Go `url.ParseQuery`: the decoded pairs of key and value in the order of the query, and
whether an error is reported. -/
def ParseQuery (query : String) : List (List UInt8 × List UInt8) × Bool :=
  (((pieces query.data).map parsePiece).filterMap Prod.fst,
   ((pieces query.data).map parsePiece).any Prod.snd)

/-- Go `url.Values`, a map from a key to the list of its values.  The map is kept as an
association list with one entry per key; `Encode` visits the keys in sorted order, so the
order of the entries is not observable. -/
structure Values where
  entries : List (String × List String)

/-- The empty map, `url.Values{}`. -/
def Values.empty : Values := ⟨[]⟩

/-- Appends a value to the list stored under a key, creating the entry when the key is new. -/
def addEntry : List (String × List String) → String → String → List (String × List String)
  | [], key, value => [(key, [value])]
  | (k, vs) :: rest, key, value =>
    if k = key then (k, vs ++ [value]) :: rest else (k, vs) :: addEntry rest key value

/-- Go `Values.Add`: appends the value to the list of the key. -/
def Values.Add (v : Values) (key value : String) : Values := ⟨addEntry v.entries key value⟩

/-- Order of Go strings (byte-wise lexicographic, which on UTF-8 text is the order of the
code points). -/
def less : List Char → List Char → Bool
  | [], [] => false
  | [], _ :: _ => true
  | _ :: _, [] => false
  | a :: as, b :: bs => a.toNat < b.toNat ∨ (a = b ∧ less as bs)

/-- Insertion of a key into a sorted list of keys. -/
def insertKey (k : String) : List String → List String
  | [] => [k]
  | x :: xs => if less x.data k.data then x :: insertKey k xs else k :: x :: xs

/-- The keys of the map in increasing order (`slices.Sort(keys)`). -/
def sortedKeys (v : Values) : List String :=
  (v.entries.map Prod.fst).foldr insertKey []

/-- The values stored under a key (`v[k]`). -/
def Values.get (v : Values) (k : String) : List String :=
  match v.entries.find? (fun e => e.1 = k) with
  | some e => e.2
  | none => []

/-- Go `Values.Encode`: the pairs `key=value` joined by `&`, keys in sorted order, keys and
values query-escaped. -/
def Values.Encode (v : Values) : String :=
  (sortedKeys v).foldl
    (fun buf k =>
      (v.get k).foldl
        (fun buf value =>
          (if buf.length > 0 then buf ++ "&" else buf) ++ QueryEscape k ++ "=" ++ QueryEscape value)
        buf)
    ""

end url

/-! ## The data model declared in `fetchUserPostsPublic` -/

/-- The `author` object of a post. -/
structure Author where
  Handle : String
  DisplayName : Option String
  deriving DecidableEq, Repr

/-- The `record` object of a post. -/
structure Record where
  Text : String
  CreatedAt : String
  deriving DecidableEq, Repr

/-- The `post` object of a feed element. -/
structure Post where
  URI : String
  Author : Author
  Record : Record
  LikeCount : Option Int
  RepostCount : Option Int
  ReplyCount : Option Int
  deriving DecidableEq, Repr

/-- One element of the `feed` array. -/
structure FeedItem where
  Post : Post
  deriving DecidableEq, Repr

/-- The variable `feedResponse`. -/
structure FeedResponse where
  Feed : List FeedItem
  Cursor : Option String
  deriving DecidableEq, Repr

/-- The zero value of a feed element, the start value of every decoded element. -/
def FeedItem.zero : FeedItem := ⟨⟨"", ⟨"", none⟩, ⟨"", ""⟩, none, none, none⟩⟩

/-- The zero value of `feedResponse`, its value before decoding. -/
def FeedResponse.zero : FeedResponse := ⟨[], none⟩

/-! ## encoding/json -/

namespace json

/-- A syntactically valid JSON text, by structure.  A number keeps its literal; an object keeps
its members in the order of the text, repeated keys included. -/
inductive JSON where
  | null
  | bool (b : Bool)
  | number (lit : String)
  | string (s : String)
  | array (elems : List JSON)
  | object (members : List (String × JSON))

/-- Go `json.UnmarshalTypeError`: a JSON value that does not fit the Go type of its
destination. -/
structure UnmarshalTypeError where
  Value : String
  Field : String
  deriving DecidableEq, Repr

/-- Case folding of one character of a key (`foldRune`): the least member of its simple-fold
orbit.  The orbits that meet the ASCII letters are the pairs of an upper-case and a lower-case
letter, with the Kelvin sign added to `K` and the long s added to `S`; no other character
folds to an ASCII letter, so for the comparison with the ASCII field names of this program all
other characters may stay as they are. -/
def foldRune (c : Char) : Char :=
  if 'a' ≤ c ∧ c ≤ 'z' then Char.ofNat (c.toNat - 32)
  else if c.toNat = 0x212A then 'K'
  else if c.toNat = 0x17F then 'S'
  else c

/-- The folded form of a key (`foldName`). -/
def foldName (s : String) : List Char := s.data.map foldRune

/-- The field an object key is stored in: the field of exactly that name when there is one,
otherwise the first field whose name equals the key up to case folding. -/
def findField (fields : List String) (key : String) : Option String :=
  match fields.find? (fun f => f = key) with
  | some f => some f
  | none => fields.find? (fun f => foldName f = foldName key)

/-- Decoding into a Go `string`. -/
def decodeString (field : String) (cur : String) : JSON → Except UnmarshalTypeError String
  | .null => .ok cur
  | .string s => .ok s
  | .bool _ => .error ⟨"bool", field⟩
  | .number _ => .error ⟨"number", field⟩
  | .array _ => .error ⟨"array", field⟩
  | .object _ => .error ⟨"object", field⟩

/-- Decoding into a Go `*string`: `null` sets the pointer to nil, any other value is decoded
into the string pointed to (a new one when the pointer is nil). -/
def decodeStringPtr (field : String) (cur : Option String) :
    JSON → Except UnmarshalTypeError (Option String)
  | .null => .ok none
  | j => (decodeString field (cur.getD "") j).map some

/-- Decoding into a Go `*int`: a number is stored when its literal is accepted by
`strconv.ParseInt(lit, 10, 64)`. -/
def decodeIntPtr (field : String) : JSON → Except UnmarshalTypeError (Option Int)
  | .null => .ok none
  | .number lit =>
    match strconv.ParseInt lit with
    | .ok n => .ok (some n)
    | .error _ => .error ⟨"number " ++ lit, field⟩
  | .string _ => .error ⟨"string", field⟩
  | .bool _ => .error ⟨"bool", field⟩
  | .array _ => .error ⟨"array", field⟩
  | .object _ => .error ⟨"object", field⟩

/-- Decoding into a Go struct: `null` leaves the struct as it is, an object stores each member
in turn with `store`, any other value is a type error. -/
def decodeStruct {α : Type} (field : String)
    (store : α → String × JSON → Except UnmarshalTypeError α) (cur : α) :
    JSON → Except UnmarshalTypeError α
  | .null => .ok cur
  | .object members => members.foldlM store cur
  | .string _ => .error ⟨"string", field⟩
  | .number _ => .error ⟨"number", field⟩
  | .bool _ => .error ⟨"bool", field⟩
  | .array _ => .error ⟨"array", field⟩

/-- Stores one member of an `author` object. -/
def storeAuthor (field : String) (cur : Author) (m : String × JSON) :
    Except UnmarshalTypeError Author :=
  match findField ["handle", "displayName"] m.1 with
  | none => .ok cur
  | some f =>
    if f = "handle" then
      (decodeString (field ++ ".handle") cur.Handle m.2).map (fun h => { cur with Handle := h })
    else
      (decodeStringPtr (field ++ ".displayName") cur.DisplayName m.2).map
        (fun d => { cur with DisplayName := d })

/-- Stores one member of a `record` object. -/
def storeRecord (field : String) (cur : Record) (m : String × JSON) :
    Except UnmarshalTypeError Record :=
  match findField ["text", "createdAt"] m.1 with
  | none => .ok cur
  | some f =>
    if f = "text" then
      (decodeString (field ++ ".text") cur.Text m.2).map (fun t => { cur with Text := t })
    else
      (decodeString (field ++ ".createdAt") cur.CreatedAt m.2).map
        (fun c => { cur with CreatedAt := c })

/-- Stores one member of a `post` object. -/
def storePost (field : String) (cur : Post) (m : String × JSON) :
    Except UnmarshalTypeError Post :=
  match findField ["uri", "author", "record", "likeCount", "repostCount", "replyCount"] m.1 with
  | none => .ok cur
  | some f =>
    if f = "uri" then
      (decodeString (field ++ ".uri") cur.URI m.2).map (fun u => { cur with URI := u })
    else if f = "author" then
      (decodeStruct (field ++ ".author") (storeAuthor (field ++ ".author")) cur.Author m.2).map
        (fun a => { cur with Author := a })
    else if f = "record" then
      (decodeStruct (field ++ ".record") (storeRecord (field ++ ".record")) cur.Record m.2).map
        (fun r => { cur with Record := r })
    else if f = "likeCount" then
      (decodeIntPtr (field ++ ".likeCount") m.2).map (fun n => { cur with LikeCount := n })
    else if f = "repostCount" then
      (decodeIntPtr (field ++ ".repostCount") m.2).map (fun n => { cur with RepostCount := n })
    else
      (decodeIntPtr (field ++ ".replyCount") m.2).map (fun n => { cur with ReplyCount := n })

/-- Stores one member of a feed element. -/
def storeItem (field : String) (cur : FeedItem) (m : String × JSON) :
    Except UnmarshalTypeError FeedItem :=
  match findField ["post"] m.1 with
  | none => .ok cur
  | some _ =>
    (decodeStruct (field ++ ".post") (storePost (field ++ ".post")) cur.Post m.2).map
      (fun p => { cur with Post := p })

/-- Decoding into the slice `Feed`, as the package documents it: `null` sets the slice to nil;
an array resets the length to zero and appends one element per array element, each decoded into
a zero value. -/
def decodeFeed (field : String) : JSON → Except UnmarshalTypeError (List FeedItem)
  | .null => .ok []
  | .array elems => elems.mapM (decodeStruct field (storeItem field) FeedItem.zero)
  | .string _ => .error ⟨"string", field⟩
  | .number _ => .error ⟨"number", field⟩
  | .bool _ => .error ⟨"bool", field⟩
  | .object _ => .error ⟨"object", field⟩

/-- Stores one member of the response object. -/
def storeResponse (cur : FeedResponse) (m : String × JSON) :
    Except UnmarshalTypeError FeedResponse :=
  match findField ["feed", "cursor"] m.1 with
  | none => .ok cur
  | some f =>
    if f = "feed" then (decodeFeed "feed" m.2).map (fun l => { cur with Feed := l })
    else (decodeStringPtr "cursor" cur.Cursor m.2).map (fun c => { cur with Cursor := c })

/-- Go `json.Unmarshal` into `&feedResponse`, on a syntactically valid text. -/
def Unmarshal (j : JSON) : Except UnmarshalTypeError FeedResponse :=
  decodeStruct "" storeResponse FeedResponse.zero j

end json

/-! ## The environment of the program -/

/-- What `http.Get` hands back when the transport succeeds.  The status code is never read by
the program.  The body is given as the JSON decoder sees it: its first JSON value by
structure, or the message of the error met while reading that value (a failed read, the end of
the input, a syntax error). -/
structure Response where
  StatusCode : Int
  Body : Except String json.JSON

/-- The parts of the world the program depends on. -/
structure Env where
  /-- Go `filepath.Base` of the running platform. -/
  Base : String → String
  /-- Outcome of `http.Get` for a URL: the message of a transport error, or a response. -/
  Get : String → Except String Response
  /-- The text of `UnmarshalTypeError.Error()`. -/
  TypeErrorText : json.UnmarshalTypeError → String

/-- Go `json.NewDecoder(body).Decode(&feedResponse)`: the syntax error of the body, or the
first type error met while storing it, or the decoded value. -/
def json.Decode (env : Env) (body : Except String json.JSON) : Except String FeedResponse :=
  match body with
  | .error msg => .error msg
  | .ok j =>
    match json.Unmarshal j with
    | .ok r => .ok r
    | .error e => .error (env.TypeErrorText e)

/-! ## The program -/

namespace bsky

/-- How the process ends: `os.Exit(code)` (or a return from `main`, code 0), or a run-time
panic, which makes the Go runtime print the panic and exit with status 2. -/
inductive Exit where
  | status (code : Nat)
  | panic (msg : String)
  deriving DecidableEq, Repr

/-- The exit status of the process. -/
def Exit.code : Exit → Nat
  | .status c => c
  | .panic _ => 2

/-- The message of the panic raised by `s[0]` on an empty string or slice. -/
def indexPanic : String := "runtime error: index out of range [0] with length 0"

/-- What one run of `fetchUserPostsPublic` did: the URLs it requested, the writes it made to
standard output, and the error it returned (`none` for `nil`, else the message). -/
structure FetchResult where
  requests : List String
  stdout : List String
  err : Option String
  deriving DecidableEq, Repr

/-- What one run of `main` did: its writes to the two streams, the calls it made to
`fetchUserPostsPublic` (handle and limit), the URLs requested, and how it ended. -/
structure Outcome where
  stdout : List String
  stderr : List String
  calls : List (String × Int)
  requests : List String
  exit : Exit
  deriving DecidableEq, Repr

/-- The three writes of `displayUsage` for a given base name of the program. -/
def usageText (basename : String) : List String :=
  ["Usage: " ++ basename ++ " USERNAME POSTCOUNT\n\n",
   "USERNAME   ->  BlueSky username (e.g., user.bsky.social).\n",
   "POSTCOUNT  ->  Number of posts to fetch (a positive integer).\n"]

/-- Function `displayUsage`, entered with `before` already written to the error stream: it
reads `os.Args[0]`, writes the usage text and ends the process with status 1. -/
def displayUsage (env : Env) (Args : List String) (before : List String) : Outcome :=
  match Args with
  | [] => ⟨[], before, [], [], .panic indexPanic⟩
  | arg0 :: _ => ⟨[], before ++ usageText (env.Base arg0), [], [], .status 1⟩

/-- The URL built by `fetchUserPostsPublic` (variable `fullURL`). -/
def fullURL (userHandle : String) (limit : Int) : String :=
  let baseURL := "https://public.api.bsky.app/xrpc/app.bsky.feed.getAuthorFeed"
  let params := url.Values.empty
  let params := params.Add "actor" userHandle
  let params := params.Add "filter" "posts_and_author_threads"
  let params := params.Add "limit" (strconv.Itoa limit)
  baseURL ++ "?" ++ params.Encode

/-- The writes of one pass through the loop body, for the element at 0-based index `i`. -/
def postBlock (i : Nat) (item : FeedItem) : List String :=
  let post := item.Post
  let displayName :=
    match post.Author.DisplayName with
    | some d => d
    | none => post.Author.Handle
  ["Post " ++ strconv.Itoa (i + 1) ++ " ------------------------------------------------------------\n",
   "Author: " ++ displayName ++ " (@" ++ post.Author.Handle ++ ")\n",
   "Text: " ++ post.Record.Text ++ "\n",
   "Created: " ++ post.Record.CreatedAt ++ "\n"]
  ++ (match post.LikeCount with
      | some n => ["Likes: " ++ strconv.Itoa n ++ "\n"]
      | none => [])
  ++ (match post.RepostCount with
      | some n => ["Reposts: " ++ strconv.Itoa n ++ "\n"]
      | none => [])
  ++ (match post.ReplyCount with
      | some n => ["Replies: " ++ strconv.Itoa n ++ "\n"]
      | none => [])
  ++ ["\n"]

/-- The loop `for i, item := range feedResponse.Feed`, from index `i` on. -/
def printPosts : Nat → List FeedItem → List String
  | _, [] => []
  | i, item :: rest => postBlock i item ++ printPosts (i + 1) rest

/-- The rendering part of `fetchUserPostsPublic`: everything written to standard output once
the response is decoded. -/
def render (feedResponse : FeedResponse) (userHandle : String) : List String :=
  ["Found " ++ strconv.Itoa feedResponse.Feed.length ++ " posts for user " ++ userHandle ++ ":\n\n"]
  ++ printPosts 0 feedResponse.Feed
  ++ (match feedResponse.Cursor with
      | some c => ["Next page cursor: " ++ c ++ "\n"]
      | none => [])

/-- Function `fetchUserPostsPublic`. -/
def fetchUserPostsPublic (env : Env) (userHandle : String) (limit : Int) : FetchResult :=
  match env.Get (fullURL userHandle limit) with
  | .error e => ⟨[fullURL userHandle limit], [], some ("failed to fetch posts: " ++ e)⟩
  | .ok resp =>
    match json.Decode env resp.Body with
    | .error e => ⟨[fullURL userHandle limit], [], some ("failed to parse response: " ++ e)⟩
    | .ok feedResponse => ⟨[fullURL userHandle limit], render feedResponse userHandle, none⟩

/-- Function `main`, run with `os.Args = Args`. -/
def main (env : Env) (Args : List String) : Outcome :=
  match Args with
  | [_, username, numPostsStr] =>
    match username.data with
    | [] => ⟨[], [], [], [], .panic indexPanic⟩
    | u :: _ =>
      if u = '-' then displayUsage env Args []
      else
        match numPostsStr.data with
        | [] => ⟨[], [], [], [], .panic indexPanic⟩
        | c :: _ =>
          if c = '-' then displayUsage env Args []
          else
            match strconv.Atoi numPostsStr with
            | .error _ =>
              displayUsage env Args ["Error: number_of_posts must be a positive integer\n"]
            | .ok numPosts =>
              if numPosts ≤ 0 then
                displayUsage env Args ["Error: number_of_posts must be a positive integer\n"]
              else
                let r := fetchUserPostsPublic env username numPosts
                match r.err with
                | some e =>
                  ⟨r.stdout, ["Error: " ++ e ++ "\n"], [(username, numPosts)], r.requests, .status 1⟩
                | none => ⟨r.stdout, [], [(username, numPosts)], r.requests, .status 0⟩
  | _ => displayUsage env Args []

end bsky

/-! ## Definitions used in the statements -/

namespace strconv

/-- The number denoted by a list of decimal digit characters. -/
def digitsVal (l : List Char) : Nat := l.foldl (fun a c => a * 10 + (c.toNat - 48)) 0

end strconv

namespace strings

/-- Go `strings.HasPrefix`. -/
def HasPrefix (s pre : String) : Bool := pre.data.isPrefixOf s.data

end strings

namespace bsky

/-- The positional argument begins with the character `-`. -/
def startsWithDash (s : String) : Prop := s.data.head? = some '-'

instance (s : String) : Decidable (startsWithDash s) := by
  unfold startsWithDash; infer_instance

/-- The outcome of a usage error: nothing on standard output, `before` and then the usage text
on the error stream, no call of `fetchUserPostsPublic`, no request, exit status 1. -/
def usageExit (env : Env) (prog : String) (before : List String) : Outcome :=
  ⟨[], before ++ usageText (env.Base prog), [], [], .status 1⟩

/-- The outcome of a run that reaches the fetch: what `fetchUserPostsPublic` wrote and
requested, its error reported on one line, one call recorded. -/
def fetchExit (env : Env) (username : String) (numPosts : Int) : Outcome :=
  match (fetchUserPostsPublic env username numPosts).err with
  | some e =>
    ⟨(fetchUserPostsPublic env username numPosts).stdout, ["Error: " ++ e ++ "\n"],
      [(username, numPosts)], (fetchUserPostsPublic env username numPosts).requests, .status 1⟩
  | none =>
    ⟨(fetchUserPostsPublic env username numPosts).stdout, [],
      [(username, numPosts)], (fetchUserPostsPublic env username numPosts).requests, .status 0⟩

/-- The first four characters of a write; they tell the kinds of lines of the output apart. -/
def lineTag (s : String) : List Char := s.data.take 4

/-- The lines a post block owes to its counters, in the order of the source. -/
def counterLines (post : Post) : List String :=
  (post.LikeCount.toList.map fun n => "Likes: " ++ strconv.Itoa n ++ "\n")
  ++ (post.RepostCount.toList.map fun n => "Reposts: " ++ strconv.Itoa n ++ "\n")
  ++ (post.ReplyCount.toList.map fun n => "Replies: " ++ strconv.Itoa n ++ "\n")

/-- The query string of the request. -/
def queryString (userHandle : String) (limit : Int) : String :=
  "actor=" ++ url.QueryEscape userHandle ++ "&filter=posts_and_author_threads&limit="
    ++ strconv.Itoa limit

end bsky

namespace json

/-- The four JSON types that the data model asks for. -/
inductive Kind where
  | string
  | number
  | array
  | object
  deriving DecidableEq, Repr

/-- The value is present with a wrong type for a destination of the given kind: it is not
`null` (which the decoder takes as an absent value) and not of that kind. -/
def mistyped : JSON → Kind → Bool
  | .null, _ => false
  | .string _, k => k ≠ .string
  | .number _, k => k ≠ .number
  | .array _, k => k ≠ .array
  | .object _, k => k ≠ .object
  | .bool _, _ => true

/-- Among the members of an object, the field of the given name is present with a wrong type. -/
def fieldMistyped (members : List (String × JSON)) (name : String) (k : Kind) : Bool :=
  members.any (fun m => m.1 = name ∧ mistyped m.2 k)

/-- Among the members of an object, the field of the given name is present with a value that
satisfies `inner`. -/
def fieldHas (members : List (String × JSON)) (name : String) (inner : JSON → Bool) : Bool :=
  members.any (fun m => m.1 = name ∧ inner m.2)

/-- An `author` object has a field of the data model with a wrong type. -/
def authorWrong : JSON → Bool
  | .object ms => fieldMistyped ms "handle" .string || fieldMistyped ms "displayName" .string
  | _ => false

/-- A `record` object has a field of the data model with a wrong type. -/
def recordWrong : JSON → Bool
  | .object ms => fieldMistyped ms "text" .string || fieldMistyped ms "createdAt" .string
  | _ => false

/-- A `post` object has a field of the data model with a wrong type, at any depth. -/
def postWrong : JSON → Bool
  | .object ms =>
    fieldMistyped ms "uri" .string || fieldMistyped ms "author" .object
      || fieldMistyped ms "record" .object || fieldMistyped ms "likeCount" .number
      || fieldMistyped ms "repostCount" .number || fieldMistyped ms "replyCount" .number
      || fieldHas ms "author" authorWrong || fieldHas ms "record" recordWrong
  | _ => false

/-- A feed element has a field of the data model with a wrong type, at any depth. -/
def itemWrong : JSON → Bool
  | .object ms => fieldMistyped ms "post" .object || fieldHas ms "post" postWrong
  | _ => false

/-- The elements of the `feed` array hold a field of the data model with a wrong type, or one
of them is itself not an object. -/
def feedWrong : JSON → Bool
  | .array elems => elems.any (fun e => mistyped e .object || itemWrong e)
  | _ => false

/-- The response body has a field of the data model with a wrong JSON type, at any depth. -/
def responseWrong : JSON → Bool
  | .object ms =>
    fieldMistyped ms "feed" .array || fieldMistyped ms "cursor" .string
      || fieldHas ms "feed" feedWrong
  | _ => false

/-- A result of the decoder that is an error. -/
def IsError {α : Type} (r : Except UnmarshalTypeError α) : Prop := ∃ e, r = .error e

/-- The decoder stores a member with this key in the field of this name: the key is the name,
or equals it up to case folding. -/
def namesField (key field : String) : Bool := key = field ∨ foldName key = foldName field

end json

/-- The response of the example in the specification, by structure:
a feed of one post by `alice.example` with text `hi`, no counters, and a `null` cursor. -/
def exampleResponse : json.JSON :=
  .object
    [("feed", .array
      [.object
        [("post", .object
          [("uri", .string "at://x"),
           ("author", .object [("handle", .string "alice.example")]),
           ("record", .object
            [("text", .string "hi"), ("createdAt", .string "2024-01-01T00:00:00Z")])])]]),
     ("cursor", .null)]

/-- An environment in which every request is answered, with the given status code and body. -/
def answeringEnv (status : Int) (body : Except String json.JSON) : Env :=
  ⟨fun path => path, fun _ => .ok ⟨status, body⟩,
   fun e => "json: cannot unmarshal " ++ e.Value ++ " into Go struct field " ++ e.Field⟩

/-! ## Lemmas on the library models -/

namespace strconv

theorem digitChar_toNat (d : Nat) (h : d < 10) : (Nat.digitChar d).toNat = 48 + d := by
  interval_cases d <;> rfl

theorem toDigitsCore_spec (fuel : Nat) : ∀ (n : Nat) (ds : List Char), n < fuel →
    ∃ l, Nat.toDigitsCore 10 fuel n ds = l ++ ds ∧ digitsVal l = n ∧ l ≠ [] ∧
      ∀ c ∈ l, 48 ≤ c.toNat ∧ c.toNat ≤ 57 := by
  induction fuel with
  | zero => intro n ds h; omega
  | succ fuel ih =>
    intro n ds h
    have hd : (Nat.digitChar (n % 10)).toNat = 48 + n % 10 :=
      digitChar_toNat _ (Nat.mod_lt _ (by decide))
    simp only [Nat.toDigitsCore]
    by_cases h0 : n / 10 = 0
    · refine ⟨[Nat.digitChar (n % 10)], ?_, ?_, by simp, ?_⟩
      · simp [h0]
      · simp [digitsVal, hd]; omega
      · intro c hc
        simp at hc; subst hc; omega
    · obtain ⟨l, hl, hv, _, hall⟩ := ih (n / 10) (Nat.digitChar (n % 10) :: ds) (by omega)
      refine ⟨l ++ [Nat.digitChar (n % 10)], ?_, ?_, by simp, ?_⟩
      · simp [h0, hl]
      · simp only [digitsVal] at hv ⊢
        simp [List.foldl_append, hv, hd]; omega
      · intro c hc
        simp at hc
        rcases hc with hc | hc
        · exact hall c hc
        · subst hc; omega

/-- The digits printed for a natural number denote it, and are decimal digits. -/
theorem toDigits_spec (n : Nat) : digitsVal (Nat.toDigits 10 n) = n ∧ Nat.toDigits 10 n ≠ [] ∧
    ∀ c ∈ Nat.toDigits 10 n, 48 ≤ c.toNat ∧ c.toNat ≤ 57 := by
  obtain ⟨l, hl, hv, hne, hall⟩ := toDigitsCore_spec (n + 1) n [] (by omega)
  simp only [List.append_nil] at hl
  simp only [Nat.toDigits, hl]
  exact ⟨hv, hne, hall⟩

theorem Itoa_data_neg (i : Int) (h : i < 0) :
    (Itoa i).data = '-' :: Nat.toDigits 10 (-i).toNat := by
  simp [Itoa, h, String.data_append]

theorem Itoa_data_nonneg (i : Int) (h : 0 ≤ i) : (Itoa i).data = Nat.toDigits 10 i.toNat := by
  have : ¬ i < 0 := by omega
  simp [Itoa, this]

/-- Distinct integers have distinct decimal texts. -/
theorem Itoa_injective (a b : Int) (h : Itoa a = Itoa b) : a = b := by
  have hd : (Itoa a).data = (Itoa b).data := by rw [h]
  have nohead : ∀ (n : Nat) (l : List Char), Nat.toDigits 10 n ≠ '-' :: l := by
    intro n l hl
    have := (toDigits_spec n).2.2 '-' (by rw [hl]; simp)
    simp at this
  rcases lt_or_le a 0 with ha | ha <;> rcases lt_or_le b 0 with hb | hb
  · rw [Itoa_data_neg a ha, Itoa_data_neg b hb] at hd
    have h1 := congrArg digitsVal (List.cons.inj hd).2
    rw [(toDigits_spec _).1, (toDigits_spec _).1] at h1
    omega
  · rw [Itoa_data_neg a ha, Itoa_data_nonneg b hb] at hd
    exact absurd hd.symm (nohead _ _)
  · rw [Itoa_data_nonneg a ha, Itoa_data_neg b hb] at hd
    exact absurd hd (nohead _ _)
  · rw [Itoa_data_nonneg a ha, Itoa_data_nonneg b hb] at hd
    have h1 := congrArg digitsVal hd
    rw [(toDigits_spec _).1, (toDigits_spec _).1] at h1
    omega

end strconv

/-! ## The entry point -/

namespace bsky

/-- A wrong number of positional arguments is a usage error, whatever the arguments are. -/
theorem main_wrong_count (env : Env) (prog : String) (args : List String)
    (h : args.length ≠ 2) : main env (prog :: args) = usageExit env prog [] := by
  match args, h with
  | [], _ => rfl
  | [_], _ => rfl
  | [_, _], h => exact absurd rfl h
  | _ :: _ :: _ :: _, _ => rfl

/-- Two non-empty arguments of which one begins with a dash are a usage error. -/
theorem main_dash (env : Env) (prog u c : String) (hu : u ≠ "") (hc : c ≠ "")
    (hd : startsWithDash u ∨ startsWithDash c) :
    main env [prog, u, c] = usageExit env prog [] := by
  obtain ⟨ud⟩ := u
  obtain ⟨cd⟩ := c
  cases ud with
  | nil => exact absurd rfl hu
  | cons u0 ut =>
    cases cd with
    | nil => exact absurd rfl hc
    | cons c0 ct =>
      simp only [startsWithDash, List.head?_cons, Option.some.injEq] at hd
      simp only [main]
      by_cases h1 : u0 = '-'
      · simp [h1, displayUsage, usageExit]
      · have h2 : c0 = '-' := by tauto
        simp [h1, h2, displayUsage, usageExit]

/-- Two non-empty arguments without a leading dash, the second of which is not the decimal text
of a positive integer, are a usage error announced by one more line. -/
theorem main_bad_count (env : Env) (prog u c : String) (hu : u ≠ "") (hc : c ≠ "")
    (hud : ¬ startsWithDash u) (hcd : ¬ startsWithDash c)
    (hp : ∀ n, strconv.Atoi c = .ok n → n ≤ 0) :
    main env [prog, u, c]
      = usageExit env prog ["Error: number_of_posts must be a positive integer\n"] := by
  obtain ⟨ud⟩ := u
  obtain ⟨cd⟩ := c
  cases ud with
  | nil => exact absurd rfl hu
  | cons u0 ut =>
    cases cd with
    | nil => exact absurd rfl hc
    | cons c0 ct =>
      simp only [startsWithDash, List.head?_cons, Option.some.injEq] at hud hcd
      simp only [main, if_neg hud, if_neg hcd]
      cases hA : strconv.Atoi ⟨c0 :: ct⟩ with
      | error e => simp [displayUsage, usageExit]
      | ok n =>
        have := hp n hA
        simp [this, displayUsage, usageExit]

/-- Two arguments without a leading dash, the first non-empty and the second the decimal text
of a positive integer, reach the fetch. -/
theorem main_valid (env : Env) (prog u c : String) (n : Int) (hu : u ≠ "")
    (hud : ¬ startsWithDash u) (hcd : ¬ startsWithDash c)
    (hp : strconv.Atoi c = .ok n) (hn : 0 < n) :
    main env [prog, u, c] = fetchExit env u n := by
  obtain ⟨ud⟩ := u
  obtain ⟨cd⟩ := c
  cases ud with
  | nil => exact absurd rfl hu
  | cons u0 ut =>
    cases cd with
    | nil => exact absurd hp (by simp [strconv.Atoi, strconv.ParseInt])
    | cons c0 ct =>
      simp only [startsWithDash, List.head?_cons, Option.some.injEq] at hud hcd
      have hn' : ¬ n ≤ 0 := by omega
      simp only [main, if_neg hud, if_neg hcd, hp, if_neg hn', fetchExit]

/-- Whenever `main` calls `fetchUserPostsPublic`, the limit it passes is positive, and no
request is made without such a call. -/
theorem main_calls_positive (env : Env) (Args : List String) :
    (∀ call ∈ (main env Args).calls, 0 < call.2)
    ∧ ((main env Args).calls = [] → (main env Args).requests = []) := by
  have hU : ∀ before, (displayUsage env Args before).calls = []
      ∧ (displayUsage env Args before).requests = [] := by
    intro before
    unfold displayUsage
    cases Args <;> exact ⟨rfl, rfl⟩
  unfold main
  split
  · rename_i a0 username numPostsStr
    split
    · exact ⟨by simp, fun _ => rfl⟩
    · split
      · exact ⟨by simp [(hU []).1], fun _ => (hU []).2⟩
      · split
        · exact ⟨by simp, fun _ => rfl⟩
        · split
          · exact ⟨by simp [(hU []).1], fun _ => (hU []).2⟩
          · split
            · exact ⟨by simp [(hU _).1], fun _ => (hU _).2⟩
            · rename_i numPosts _
              split
              · exact ⟨by simp [(hU _).1], fun _ => (hU _).2⟩
              · rename_i hpos
                have hp : 0 < numPosts := by omega
                simp only
                split <;> exact ⟨by simpa using hp, by simp⟩
  · exact ⟨by simp [(hU []).1], fun _ => (hU []).2⟩

end bsky

/-- Claim C1 fails on the code at an empty second argument: for the arguments `alice` and the
empty string, `main` evaluates `numPostsStr[0]` on the empty string and panics, so the process
exits with status 2 and has written no usage text, where C1 asks for the usage text and exit
status 1.  The same happens when the first argument is empty, also when the second one begins
with a dash. -/
theorem C1_empty_argument_panics (env : Env) (prog : String) :
    bsky.main env [prog, "alice", ""] = ⟨[], [], [], [], .panic bsky.indexPanic⟩
    ∧ (bsky.main env [prog, "alice", ""]).exit.code = 2
    ∧ (∀ before, bsky.main env [prog, "alice", ""] ≠ bsky.usageExit env prog before)
    ∧ bsky.main env [prog, "", "-5"] = ⟨[], [], [], [], .panic bsky.indexPanic⟩ := by
  refine ⟨rfl, rfl, ?_, rfl⟩
  intro before h
  have h2 := congrArg bsky.Outcome.exit h
  exact absurd h2 (by simp [bsky.usageExit, bsky.main])

/-- Claim C2 fails on the code at an empty first argument: for the arguments the empty string
and `5` (no leading dash, the second parses as 5), `main` evaluates `username[0]` on the empty
string and panics before the fetch, so `fetchUserPostsPublic` is never called, where C2 asks
for one call with the empty handle and limit 5. -/
theorem C2_empty_username_panics (env : Env) (prog : String) :
    ¬ bsky.startsWithDash "" ∧ ¬ bsky.startsWithDash "5" ∧ strconv.Atoi "5" = .ok 5
    ∧ bsky.main env [prog, "", "5"] = ⟨[], [], [], [], .panic bsky.indexPanic⟩
    ∧ (bsky.main env [prog, "", "5"]).calls = []
    ∧ (bsky.main env [prog, "", "5"]).exit.code = 2 := by
  refine ⟨by decide, by decide, by decide, rfl, rfl, rfl⟩

/-! ## The renderer -/

namespace bsky

theorem lineTag_of_hasPrefix (w pre : String) (hp : strings.HasPrefix w pre = true)
    (hl : 4 ≤ pre.data.length) : lineTag w = lineTag pre := by
  simp only [strings.HasPrefix, List.isPrefixOf_iff_prefix] at hp
  obtain ⟨t, ht⟩ := hp
  simp only [lineTag, ← ht]
  rw [List.take_append_of_le_length hl]

/-- Cancellation of a common beginning and a common end of two strings. -/
theorem middle_eq_of_append_eq (a x y b : String) (h : a ++ x ++ b = a ++ y ++ b) : x = y := by
  have hd := congrArg String.data h
  simp only [String.data_append, List.append_assoc] at hd
  have h2 := List.append_cancel_right (List.append_cancel_left hd)
  exact String.ext h2

/-- The writes of the loop are the blocks of the elements, each with its index. -/
theorem printPosts_eq (l : List FeedItem) : ∀ i : Nat,
    printPosts i l = ((l.enumFrom i).map (fun p => postBlock p.1 p.2)).flatten := by
  induction l with
  | nil => intro i; rfl
  | cons item rest ih =>
    intro i
    simp only [printPosts, List.enumFrom_cons, List.map_cons, List.flatten_cons, ih]

/-- The tag of every write of a post block. -/
theorem lineTag_postBlock (i : Nat) (item : FeedItem) (w : String) (hw : w ∈ postBlock i item) :
    lineTag w ∈ [lineTag "Post", lineTag "Author", lineTag "Text", lineTag "Created",
      lineTag "Likes", lineTag "Reposts", lineTag "Replies", lineTag "\n"] := by
  unfold postBlock at hw
  simp only [List.mem_append, List.mem_cons, List.mem_singleton, List.not_mem_nil, or_false] at hw
  rcases hw with (((((h | h | h | h) | h) | h) | h) | h)
  · subst h; exact List.mem_cons_self _ _
  · subst h; exact List.mem_cons_of_mem _ (List.mem_cons_self _ _)
  · subst h; exact List.mem_cons_of_mem _ (List.mem_cons_of_mem _ (List.mem_cons_self _ _))
  · subst h
    exact List.mem_cons_of_mem _ (List.mem_cons_of_mem _ (List.mem_cons_of_mem _
      (List.mem_cons_self _ _)))
  · cases hl : item.Post.LikeCount with
    | none => simp [hl] at h
    | some n =>
      simp only [hl, List.mem_singleton] at h
      subst h
      exact List.mem_cons_of_mem _ (List.mem_cons_of_mem _ (List.mem_cons_of_mem _
        (List.mem_cons_of_mem _ (List.mem_cons_self _ _))))
  · cases hl : item.Post.RepostCount with
    | none => simp [hl] at h
    | some n =>
      simp only [hl, List.mem_singleton] at h
      subst h
      exact List.mem_cons_of_mem _ (List.mem_cons_of_mem _ (List.mem_cons_of_mem _
        (List.mem_cons_of_mem _ (List.mem_cons_of_mem _ (List.mem_cons_self _ _)))))
  · cases hl : item.Post.ReplyCount with
    | none => simp [hl] at h
    | some n =>
      simp only [hl, List.mem_singleton] at h
      subst h
      exact List.mem_cons_of_mem _ (List.mem_cons_of_mem _ (List.mem_cons_of_mem _
        (List.mem_cons_of_mem _ (List.mem_cons_of_mem _ (List.mem_cons_of_mem _
          (List.mem_cons_self _ _))))))
  · subst h
    exact List.mem_cons_of_mem _ (List.mem_cons_of_mem _ (List.mem_cons_of_mem _
        (List.mem_cons_of_mem _ (List.mem_cons_of_mem _ (List.mem_cons_of_mem _
          (List.mem_cons_of_mem _ (List.mem_cons_self _ _)))))))

end bsky

open bsky in
/-- Claim C3: for every decoded response with N posts and every handle, the renderer writes the
header "Found N posts for user <handle>:" and then exactly N post blocks; the block at position
k (counted from 0) begins with the separator line numbered k + 1 and shows the author, text and
creation time of the k-th post of the input, so the input order is kept. -/
theorem C3_render_blocks_in_input_order (feedResponse : FeedResponse) (userHandle : String) :
    render feedResponse userHandle
      = ["Found " ++ strconv.Itoa feedResponse.Feed.length ++ " posts for user " ++ userHandle
          ++ ":\n\n"]
        ++ (feedResponse.Feed.enum.map (fun p => postBlock p.1 p.2)).flatten
        ++ (match feedResponse.Cursor with
            | some c => ["Next page cursor: " ++ c ++ "\n"]
            | none => [])
    ∧ (feedResponse.Feed.enum.map (fun p => postBlock p.1 p.2)).length = feedResponse.Feed.length
    ∧ ∀ k : Fin feedResponse.Feed.length,
        (feedResponse.Feed.enum.map (fun p => postBlock p.1 p.2))[k.val]?
          = some (postBlock k.val feedResponse.Feed[k])
        ∧ ∃ counters : List String,
          postBlock k.val feedResponse.Feed[k]
            = ["Post " ++ strconv.Itoa (k.val + 1)
                ++ " ------------------------------------------------------------\n",
               "Author: " ++ (feedResponse.Feed[k].Post.Author.DisplayName.getD
                  feedResponse.Feed[k].Post.Author.Handle)
                ++ " (@" ++ feedResponse.Feed[k].Post.Author.Handle ++ ")\n",
               "Text: " ++ feedResponse.Feed[k].Post.Record.Text ++ "\n",
               "Created: " ++ feedResponse.Feed[k].Post.Record.CreatedAt ++ "\n"]
              ++ counters ++ ["\n"] := by
  refine ⟨?_, by simp, ?_⟩
  · simp only [render, printPosts_eq, List.enum]
  · intro k
    constructor
    · simp [List.getElem?_enum]
    · refine ⟨(match feedResponse.Feed[k].Post.LikeCount with
          | some n => ["Likes: " ++ strconv.Itoa n ++ "\n"]
          | none => [])
        ++ (match feedResponse.Feed[k].Post.RepostCount with
          | some n => ["Reposts: " ++ strconv.Itoa n ++ "\n"]
          | none => [])
        ++ (match feedResponse.Feed[k].Post.ReplyCount with
          | some n => ["Replies: " ++ strconv.Itoa n ++ "\n"]
          | none => []), ?_⟩
      simp only [postBlock, List.append_assoc]
      cases feedResponse.Feed[k].Post.Author.DisplayName <;> rfl

open bsky in
/-- Claim C4: a post with handle H, text T, creation time C and optional display name, without
counters, rendered at 0-based position i, gives exactly five writes: the separator "Post <i+1> "
followed by 60 dashes, "Author: D (@H)" where D is the display name or else H, "Text: T",
"Created: C" and an empty line, each ended by a newline, with T and C copied as they are, for
all strings; and the example response of the specification is rendered as its header followed
by one such block, with no counter line and no cursor line. -/
theorem C4_block_without_counters_exact (i : Nat) (uri H T C : String) (D : Option String) :
    postBlock i ⟨⟨uri, ⟨H, D⟩, ⟨T, C⟩, none, none, none⟩⟩
      = ["Post " ++ strconv.Itoa (i + 1) ++ " " ++ String.mk (List.replicate 60 '-') ++ "\n",
         "Author: " ++ D.getD H ++ " (@" ++ H ++ ")\n",
         "Text: " ++ T ++ "\n",
         "Created: " ++ C ++ "\n",
         "\n"]
    ∧ String.join (postBlock i ⟨⟨uri, ⟨H, D⟩, ⟨T, C⟩, none, none, none⟩⟩)
      = "Post " ++ strconv.Itoa (i + 1) ++ " " ++ String.mk (List.replicate 60 '-') ++ "\n"
        ++ "Author: " ++ D.getD H ++ " (@" ++ H ++ ")\n"
        ++ "Text: " ++ T ++ "\n"
        ++ "Created: " ++ C ++ "\n"
        ++ "\n"
    ∧ (json.Unmarshal exampleResponse).map (fun r => render r "alice.example")
      = .ok ["Found 1 posts for user alice.example:\n\n",
             "Post 1 ------------------------------------------------------------\n",
             "Author: alice.example (@alice.example)\n",
             "Text: hi\n",
             "Created: 2024-01-01T00:00:00Z\n",
             "\n"] := by
  have hsep : "Post " ++ strconv.Itoa (i + 1)
        ++ " ------------------------------------------------------------\n"
      = "Post " ++ strconv.Itoa (i + 1) ++ " " ++ String.mk (List.replicate 60 '-') ++ "\n" := by
    have e : " ------------------------------------------------------------\n"
        = " " ++ String.mk (List.replicate 60 '-') ++ "\n" := by decide
    rw [e]
    simp only [String.append_assoc]
  have hblock : postBlock i ⟨⟨uri, ⟨H, D⟩, ⟨T, C⟩, none, none, none⟩⟩
      = ["Post " ++ strconv.Itoa (i + 1) ++ " " ++ String.mk (List.replicate 60 '-') ++ "\n",
         "Author: " ++ D.getD H ++ " (@" ++ H ++ ")\n",
         "Text: " ++ T ++ "\n",
         "Created: " ++ C ++ "\n",
         "\n"] := by
    rw [← hsep]
    cases D <;> rfl
  refine ⟨hblock, ?_, by decide⟩
  rw [hblock]
  simp only [String.join, List.foldl_cons, List.foldl_nil, String.append_assoc,
    String.empty_append]

open bsky in
/-- Claim C5: the Author line of a post block, its second write and the only one that begins
with "Author: ", is "Author: <name> (@<handle>)", where the name is the display name when one
is present, whatever string it is (the empty string too), and the handle when it is absent; an
`author` object with a `displayName` member decodes to a present display name, one without it
to an absent one. -/
theorem C5_author_line (i : Nat) (uri H T C d : String) (likes reposts replies : Option Int) :
    (postBlock i ⟨⟨uri, ⟨H, some d⟩, ⟨T, C⟩, likes, reposts, replies⟩⟩)[1]?
      = some ("Author: " ++ d ++ " (@" ++ H ++ ")\n")
    ∧ (postBlock i ⟨⟨uri, ⟨H, some ""⟩, ⟨T, C⟩, likes, reposts, replies⟩⟩)[1]?
      = some ("Author: " ++ "" ++ " (@" ++ H ++ ")\n")
    ∧ (postBlock i ⟨⟨uri, ⟨H, none⟩, ⟨T, C⟩, likes, reposts, replies⟩⟩)[1]?
      = some ("Author: " ++ H ++ " (@" ++ H ++ ")\n")
    ∧ (∀ D : Option String,
        (postBlock i ⟨⟨uri, ⟨H, D⟩, ⟨T, C⟩, likes, reposts, replies⟩⟩).filter
            (fun w => strings.HasPrefix w "Author: ")
          = ["Author: " ++ D.getD H ++ " (@" ++ H ++ ")\n"])
    ∧ json.decodeStruct "author" (json.storeAuthor "author") ⟨"", none⟩
        (.object [("handle", .string H), ("displayName", .string d)]) = .ok ⟨H, some d⟩
    ∧ json.decodeStruct "author" (json.storeAuthor "author") ⟨"", none⟩
        (.object [("handle", .string H)]) = .ok ⟨H, none⟩ := by
  refine ⟨rfl, rfl, rfl, ?_, rfl, rfl⟩
  intro D
  have hA : ∀ x : String, strings.HasPrefix ("Author: " ++ x) "Author: " = true := by
    intro x
    simp [strings.HasPrefix, String.data_append]
  have hP : ∀ x : String, strings.HasPrefix ("Post " ++ x) "Author: " = false := fun _ => rfl
  have hT : ∀ x : String, strings.HasPrefix ("Text: " ++ x) "Author: " = false := fun _ => rfl
  have hC : ∀ x : String, strings.HasPrefix ("Created: " ++ x) "Author: " = false := fun _ => rfl
  have hL : ∀ x : String, strings.HasPrefix ("Likes: " ++ x) "Author: " = false := fun _ => rfl
  have hR : ∀ x : String, strings.HasPrefix ("Reposts: " ++ x) "Author: " = false := fun _ => rfl
  have hY : ∀ x : String, strings.HasPrefix ("Replies: " ++ x) "Author: " = false := fun _ => rfl
  have hN : strings.HasPrefix "\n" "Author: " = false := rfl
  cases D <;> cases likes <;> cases reposts <;> cases replies <;>
    simp only [postBlock, List.filter_cons, List.filter_nil, List.append_nil, List.cons_append,
      List.nil_append, String.append_assoc, hP, hT, hC, hL, hR, hY, hN, hA,
      Option.getD_some, Option.getD_none] <;> rfl

namespace bsky

theorem ne_of_tags {a b : String} (ta tb : List Char) (ha : lineTag a = ta)
    (hb : lineTag b = tb) (h : ta ≠ tb) : a ≠ b :=
  fun e => h (by rw [← ha, ← hb, e])

/-- The writes of a post block, one by one. -/
theorem mem_postBlock_iff (i : Nat) (item : FeedItem) (w : String) :
    w ∈ postBlock i item ↔
      w = "Post " ++ strconv.Itoa (i + 1)
          ++ " ------------------------------------------------------------\n"
      ∨ w = "Author: " ++ item.Post.Author.DisplayName.getD item.Post.Author.Handle
          ++ " (@" ++ item.Post.Author.Handle ++ ")\n"
      ∨ w = "Text: " ++ item.Post.Record.Text ++ "\n"
      ∨ w = "Created: " ++ item.Post.Record.CreatedAt ++ "\n"
      ∨ (∃ n, item.Post.LikeCount = some n ∧ w = "Likes: " ++ strconv.Itoa n ++ "\n")
      ∨ (∃ n, item.Post.RepostCount = some n ∧ w = "Reposts: " ++ strconv.Itoa n ++ "\n")
      ∨ (∃ n, item.Post.ReplyCount = some n ∧ w = "Replies: " ++ strconv.Itoa n ++ "\n")
      ∨ w = "\n" := by
  obtain ⟨⟨uri, ⟨H, D⟩, ⟨T, C⟩, likes, reposts, replies⟩⟩ := item
  cases D <;> cases likes <;> cases reposts <;> cases replies <;>
    simp [postBlock]

theorem likes_mem_iff (i : Nat) (item : FeedItem) (n : Int) :
    ("Likes: " ++ strconv.Itoa n ++ "\n") ∈ postBlock i item ↔ item.Post.LikeCount = some n := by
  rw [mem_postBlock_iff]
  constructor
  · rintro (h | h | h | h | ⟨m, hm, h⟩ | ⟨m, _, h⟩ | ⟨m, _, h⟩ | h)
    · exact absurd h (ne_of_tags ['L', 'i', 'k', 'e'] ['P', 'o', 's', 't'] rfl rfl (by decide))
    · exact absurd h (ne_of_tags ['L', 'i', 'k', 'e'] ['A', 'u', 't', 'h'] rfl rfl (by decide))
    · exact absurd h (ne_of_tags ['L', 'i', 'k', 'e'] ['T', 'e', 'x', 't'] rfl rfl (by decide))
    · exact absurd h (ne_of_tags ['L', 'i', 'k', 'e'] ['C', 'r', 'e', 'a'] rfl rfl (by decide))
    · rw [hm, strconv.Itoa_injective n m (middle_eq_of_append_eq _ _ _ _ h)]
    · exact absurd h (ne_of_tags ['L', 'i', 'k', 'e'] ['R', 'e', 'p', 'o'] rfl rfl (by decide))
    · exact absurd h (ne_of_tags ['L', 'i', 'k', 'e'] ['R', 'e', 'p', 'l'] rfl rfl (by decide))
    · exact absurd h (ne_of_tags ['L', 'i', 'k', 'e'] ['\n'] rfl rfl (by decide))
  · intro h
    exact Or.inr (Or.inr (Or.inr (Or.inr (Or.inl ⟨n, h, rfl⟩))))

theorem reposts_mem_iff (i : Nat) (item : FeedItem) (n : Int) :
    ("Reposts: " ++ strconv.Itoa n ++ "\n") ∈ postBlock i item
      ↔ item.Post.RepostCount = some n := by
  rw [mem_postBlock_iff]
  constructor
  · rintro (h | h | h | h | ⟨m, _, h⟩ | ⟨m, hm, h⟩ | ⟨m, _, h⟩ | h)
    · exact absurd h (ne_of_tags ['R', 'e', 'p', 'o'] ['P', 'o', 's', 't'] rfl rfl (by decide))
    · exact absurd h (ne_of_tags ['R', 'e', 'p', 'o'] ['A', 'u', 't', 'h'] rfl rfl (by decide))
    · exact absurd h (ne_of_tags ['R', 'e', 'p', 'o'] ['T', 'e', 'x', 't'] rfl rfl (by decide))
    · exact absurd h (ne_of_tags ['R', 'e', 'p', 'o'] ['C', 'r', 'e', 'a'] rfl rfl (by decide))
    · exact absurd h (ne_of_tags ['R', 'e', 'p', 'o'] ['L', 'i', 'k', 'e'] rfl rfl (by decide))
    · rw [hm, strconv.Itoa_injective n m (middle_eq_of_append_eq _ _ _ _ h)]
    · exact absurd h (ne_of_tags ['R', 'e', 'p', 'o'] ['R', 'e', 'p', 'l'] rfl rfl (by decide))
    · exact absurd h (ne_of_tags ['R', 'e', 'p', 'o'] ['\n'] rfl rfl (by decide))
  · intro h
    exact Or.inr (Or.inr (Or.inr (Or.inr (Or.inr (Or.inl ⟨n, h, rfl⟩)))))

theorem replies_mem_iff (i : Nat) (item : FeedItem) (n : Int) :
    ("Replies: " ++ strconv.Itoa n ++ "\n") ∈ postBlock i item
      ↔ item.Post.ReplyCount = some n := by
  rw [mem_postBlock_iff]
  constructor
  · rintro (h | h | h | h | ⟨m, _, h⟩ | ⟨m, _, h⟩ | ⟨m, hm, h⟩ | h)
    · exact absurd h (ne_of_tags ['R', 'e', 'p', 'l'] ['P', 'o', 's', 't'] rfl rfl (by decide))
    · exact absurd h (ne_of_tags ['R', 'e', 'p', 'l'] ['A', 'u', 't', 'h'] rfl rfl (by decide))
    · exact absurd h (ne_of_tags ['R', 'e', 'p', 'l'] ['T', 'e', 'x', 't'] rfl rfl (by decide))
    · exact absurd h (ne_of_tags ['R', 'e', 'p', 'l'] ['C', 'r', 'e', 'a'] rfl rfl (by decide))
    · exact absurd h (ne_of_tags ['R', 'e', 'p', 'l'] ['L', 'i', 'k', 'e'] rfl rfl (by decide))
    · exact absurd h (ne_of_tags ['R', 'e', 'p', 'l'] ['R', 'e', 'p', 'o'] rfl rfl (by decide))
    · rw [hm, strconv.Itoa_injective n m (middle_eq_of_append_eq _ _ _ _ h)]
    · exact absurd h (ne_of_tags ['R', 'e', 'p', 'l'] ['\n'] rfl rfl (by decide))
  · intro h
    exact Or.inr (Or.inr (Or.inr (Or.inr (Or.inr (Or.inr (Or.inl ⟨n, h, rfl⟩))))))

end bsky

open bsky in
/-- Claim C6: for every post and each of its three counters, the block contains the line
"Likes: n" (or "Reposts: n", "Replies: n") exactly when that counter is present with value n;
the block is its separator, Author, Text and Created lines, then the lines of the counters that
are present in the order Likes, Reposts, Replies, then the empty line, so an absent counter
leaves no line and no placeholder; a present 0 is printed as 0, and likeCount = 42 gives the
line "Likes: 42", also when the counters are decoded from a `post` object. -/
theorem C6_counter_lines (i : Nat) (item : FeedItem) (n : Int) :
    (("Likes: " ++ strconv.Itoa n ++ "\n") ∈ postBlock i item ↔ item.Post.LikeCount = some n)
    ∧ (("Reposts: " ++ strconv.Itoa n ++ "\n") ∈ postBlock i item
        ↔ item.Post.RepostCount = some n)
    ∧ (("Replies: " ++ strconv.Itoa n ++ "\n") ∈ postBlock i item
        ↔ item.Post.ReplyCount = some n)
    ∧ postBlock i item
        = ["Post " ++ strconv.Itoa (i + 1)
            ++ " ------------------------------------------------------------\n",
           "Author: " ++ item.Post.Author.DisplayName.getD item.Post.Author.Handle
            ++ " (@" ++ item.Post.Author.Handle ++ ")\n",
           "Text: " ++ item.Post.Record.Text ++ "\n",
           "Created: " ++ item.Post.Record.CreatedAt ++ "\n"]
          ++ counterLines item.Post ++ ["\n"]
    ∧ counterLines ⟨"", ⟨"", none⟩, ⟨"", ""⟩, none, none, none⟩ = []
    ∧ counterLines ⟨"", ⟨"", none⟩, ⟨"", ""⟩, some 42, none, none⟩ = ["Likes: 42\n"]
    ∧ counterLines ⟨"", ⟨"", none⟩, ⟨"", ""⟩, some 0, none, some 0⟩
        = ["Likes: 0\n", "Replies: 0\n"]
    ∧ counterLines ⟨"", ⟨"", none⟩, ⟨"", ""⟩, some 3, some 2, some 1⟩
        = ["Likes: 3\n", "Reposts: 2\n", "Replies: 1\n"]
    ∧ (json.decodeStruct "post" (json.storePost "post") FeedItem.zero.Post
        (.object [("likeCount", .number "42"), ("replyCount", .number "0")])).map counterLines
        = .ok ["Likes: 42\n", "Replies: 0\n"] := by
  refine ⟨likes_mem_iff i item n, reposts_mem_iff i item n, replies_mem_iff i item n, ?_,
    by decide, by decide, by decide, by decide, by decide⟩
  obtain ⟨⟨uri, ⟨H, D⟩, ⟨T, C⟩, likes, reposts, replies⟩⟩ := item
  cases D <;> cases likes <;> cases reposts <;> cases replies <;> rfl

namespace bsky

/-- No write of a post block begins with the label of the cursor line. -/
theorem postBlock_no_cursor_label (i : Nat) (item : FeedItem) (w : String)
    (hw : w ∈ postBlock i item) : strings.HasPrefix w "Next page cursor: " = false := by
  cases hp : strings.HasPrefix w "Next page cursor: " with
  | false => rfl
  | true =>
    have ht := lineTag_of_hasPrefix w "Next page cursor: " hp (by decide)
    have hm := lineTag_postBlock i item w hw
    rw [ht] at hm
    exact absurd hm (by decide)

theorem printPosts_no_cursor_label (l : List FeedItem) : ∀ (i : Nat) (w : String),
    w ∈ printPosts i l → strings.HasPrefix w "Next page cursor: " = false := by
  induction l with
  | nil => intro i w hw; simp [printPosts] at hw
  | cons item rest ih =>
    intro i w hw
    simp only [printPosts, List.mem_append] at hw
    rcases hw with hw | hw
    · exact postBlock_no_cursor_label i item w hw
    · exact ih (i + 1) w hw

end bsky

open bsky in
/-- Claim C7: when the cursor is present with value c, the output is the output for an absent
cursor followed by the single line "Next page cursor: c", which comes after all post blocks and
is the only write beginning with that label (for the cursor abc123 the last line is "Next page
cursor: abc123"); when the cursor is absent or null, no write begins with that label and the
output is the header followed by the post blocks, so it ends with the last post block, or with
the header when there are no posts. -/
theorem C7_cursor_line (feed : List FeedItem) (userHandle c : String) :
    render ⟨feed, some c⟩ userHandle
      = render ⟨feed, none⟩ userHandle ++ ["Next page cursor: " ++ c ++ "\n"]
    ∧ (render ⟨feed, some c⟩ userHandle).countP
        (fun w => strings.HasPrefix w "Next page cursor: ") = 1
    ∧ (render ⟨feed, some "abc123"⟩ userHandle).getLast? = some "Next page cursor: abc123\n"
    ∧ render ⟨feed, none⟩ userHandle
      = ["Found " ++ strconv.Itoa feed.length ++ " posts for user " ++ userHandle ++ ":\n\n"]
        ++ (feed.enum.map (fun p => postBlock p.1 p.2)).flatten
    ∧ (render ⟨feed, none⟩ userHandle).countP
        (fun w => strings.HasPrefix w "Next page cursor: ") = 0
    ∧ render ⟨[], none⟩ userHandle = ["Found 0 posts for user " ++ userHandle ++ ":\n\n"]
    ∧ (∀ (init : List FeedItem) (last : FeedItem),
        render ⟨init ++ [last], none⟩ userHandle
          = ["Found " ++ strconv.Itoa (init.length + 1) ++ " posts for user " ++ userHandle
              ++ ":\n\n"]
            ++ (init.enum.map (fun p => postBlock p.1 p.2)).flatten
            ++ postBlock init.length last)
    ∧ json.Unmarshal (.object [("feed", .array []), ("cursor", .null)]) = .ok ⟨[], none⟩
    ∧ json.Unmarshal (.object [("feed", .array [])]) = .ok ⟨[], none⟩
    ∧ json.Unmarshal (.object [("feed", .array []), ("cursor", .string "abc123")])
        = .ok ⟨[], some "abc123"⟩ := by
  have hnone : render ⟨feed, none⟩ userHandle
      = ["Found " ++ strconv.Itoa feed.length ++ " posts for user " ++ userHandle ++ ":\n\n"]
        ++ (feed.enum.map (fun p => postBlock p.1 p.2)).flatten := by
    simp only [render, printPosts_eq, List.enum, List.append_nil]
  have hsome : ∀ c' : String, render ⟨feed, some c'⟩ userHandle
      = render ⟨feed, none⟩ userHandle ++ ["Next page cursor: " ++ c' ++ "\n"] := by
    intro c'
    simp only [render, List.append_nil]
  have hcount : (render ⟨feed, none⟩ userHandle).countP
      (fun w => strings.HasPrefix w "Next page cursor: ") = 0 := by
    rw [List.countP_eq_zero]
    intro w hw
    simp only [render, List.append_nil, List.mem_append, List.mem_singleton] at hw
    rcases hw with hw | hw
    · subst hw
      simp only [Bool.not_eq_true]
      rfl
    · simp only [Bool.not_eq_true]
      exact printPosts_no_cursor_label feed 0 w hw
  have hlabel : strings.HasPrefix ("Next page cursor: " ++ c ++ "\n") "Next page cursor: "
      = true := by
    simp [strings.HasPrefix, String.data_append]
  refine ⟨hsome c, ?_, ?_, hnone, hcount, ?_, ?_, by decide, by decide, by decide⟩
  · rw [hsome c, List.countP_append, hcount]
    simp [List.countP_cons, hlabel]
  · rw [hsome "abc123"]
    simp
  · simp [render, printPosts]
    rfl
  · intro init last
    simp only [render, printPosts_eq, List.enum, List.append_nil, List.length_append,
      List.length_singleton, List.enumFrom_append, List.map_append, List.flatten_append,
      List.enumFrom_cons, List.enumFrom_nil, List.map_cons, List.map_nil, List.flatten_cons,
      List.flatten_nil, Nat.zero_add, List.append_assoc, Nat.cast_add, Nat.cast_one]

namespace url

theorem escape_plain_char (c : Char) (h : (48 ≤ c.toNat ∧ c.toNat ≤ 57) ∨ c.toNat = 45) :
    (String.utf8EncodeChar c).flatMap escapeByte = [c] := by
  have hc : c = Char.ofNat c.toNat := (Char.ofNat_toNat c).symm
  generalize c.toNat = n at h hc
  subst hc
  rcases h with ⟨h1, h2⟩ | h
  · interval_cases n <;> decide
  · subst h; decide

theorem escape_plain (l : List Char)
    (h : ∀ c ∈ l, (48 ≤ c.toNat ∧ c.toNat ≤ 57) ∨ c.toNat = 45) :
    (l.flatMap String.utf8EncodeChar).flatMap escapeByte = l := by
  induction l with
  | nil => rfl
  | cons c cs ih =>
    simp only [List.flatMap_cons, List.flatMap_append]
    rw [escape_plain_char c (h c (List.mem_cons_self _ _)),
      ih (fun d hd => h d (List.mem_cons_of_mem _ hd))]
    rfl

/-- The decimal text of an integer is left as it is by `QueryEscape`. -/
theorem QueryEscape_Itoa (n : Int) : QueryEscape (strconv.Itoa n) = strconv.Itoa n := by
  apply String.ext
  simp only [QueryEscape, bytes]
  apply escape_plain
  intro c hc
  rcases lt_or_le n 0 with hn | hn
  · rw [strconv.Itoa_data_neg n hn] at hc
    simp only [List.mem_cons] at hc
    rcases hc with hc | hc
    · subst hc; right; rfl
    · left; exact (strconv.toDigits_spec _).2.2 c hc
  · rw [strconv.Itoa_data_nonneg n hn] at hc
    left; exact (strconv.toDigits_spec _).2.2 c hc

/-- Unescaping undoes the escaping of one byte. -/
theorem unescape_escapeByte (b : UInt8) (rest : List Char) :
    unescape (escapeByte b ++ rest) = (unescape rest).map (fun bs => b :: bs) := by
  have hlt : b.toNat < 256 := b.toBitVec.isLt
  have hb : b = UInt8.ofNat b.toNat := by
    apply UInt8.eq_of_toBitVec_eq
    apply BitVec.eq_of_toNat_eq
    exact (UInt8.toNat_ofNat_of_lt hlt).symm
  generalize b.toNat = n at hb hlt
  subst hb
  interval_cases n <;> rfl

/-- Unescaping undoes escaping. -/
theorem unescape_escape (bs : List UInt8) : unescape (bs.flatMap escapeByte) = some bs := by
  induction bs with
  | nil => rfl
  | cons b rest ih =>
    rw [List.flatMap_cons, unescape_escapeByte, ih]
    rfl

/-- Escaped text holds none of the characters that structure a query. -/
theorem escapeByte_plain (b : UInt8) :
    ∀ c ∈ escapeByte b, c ≠ '&' ∧ c ≠ '=' ∧ c ≠ ';' := by
  have hlt : b.toNat < 256 := b.toBitVec.isLt
  have hb : b = UInt8.ofNat b.toNat := by
    apply UInt8.eq_of_toBitVec_eq
    apply BitVec.eq_of_toNat_eq
    exact (UInt8.toNat_ofNat_of_lt hlt).symm
  generalize b.toNat = n at hb hlt
  subst hb
  interval_cases n <;> decide

theorem QueryEscape_plain (s : String) :
    ∀ c ∈ (QueryEscape s).data, c ≠ '&' ∧ c ≠ '=' ∧ c ≠ ';' := by
  intro c hc
  simp only [QueryEscape, List.mem_flatMap] at hc
  obtain ⟨b, _, hb⟩ := hc
  exact escapeByte_plain b c hb

theorem pieces_of_no_amp (l : List Char) (hl : l ≠ []) (h : ∀ c ∈ l, c ≠ '&') :
    pieces l = [l] := by
  induction l with
  | nil => exact absurd rfl hl
  | cons c cs ih =>
    have hc : c ≠ '&' := h c (List.mem_cons_self _ _)
    simp only [pieces, if_neg hc]
    cases cs with
    | nil => rfl
    | cons d ds =>
      rw [ih (by simp) (fun x hx => h x (List.mem_cons_of_mem _ hx))]

theorem pieces_append_amp (l r : List Char) (h : ∀ c ∈ l, c ≠ '&') :
    pieces (l ++ '&' :: r) = l :: pieces r := by
  induction l with
  | nil => simp [pieces]
  | cons c cs ih =>
    have hc : c ≠ '&' := h c (List.mem_cons_self _ _)
    have e := ih (fun x hx => h x (List.mem_cons_of_mem _ hx))
    show pieces (c :: (cs ++ '&' :: r)) = (c :: cs) :: pieces r
    simp only [pieces, if_neg hc, e]

theorem cut_append_sep (sep : Char) (l r : List Char) (h : ∀ c ∈ l, c ≠ sep) :
    cut sep (l ++ sep :: r) = (l, r) := by
  induction l with
  | nil => simp [cut]
  | cons c cs ih =>
    have hc : c ≠ sep := h c (List.mem_cons_self _ _)
    have e := ih (fun x hx => h x (List.mem_cons_of_mem _ hx))
    show cut sep (c :: (cs ++ sep :: r)) = (c :: cs, r)
    simp only [cut, if_neg hc, e]

end url

namespace bsky

theorem params_eq (a b c : String) :
    ((url.Values.empty.Add "actor" a).Add "filter" b).Add "limit" c
      = ⟨[("actor", [a]), ("filter", [b]), ("limit", [c])]⟩ := rfl

theorem Encode_params (a b c : String) :
    url.Values.Encode ⟨[("actor", [a]), ("filter", [b]), ("limit", [c])]⟩
      = "actor" ++ "=" ++ url.QueryEscape a ++ "&" ++ "filter" ++ "=" ++ url.QueryEscape b
        ++ "&" ++ "limit" ++ "=" ++ url.QueryEscape c := rfl

theorem fullURL_eq (userHandle : String) (limit : Int) :
    fullURL userHandle limit
      = "https://public.api.bsky.app/xrpc/app.bsky.feed.getAuthorFeed" ++ "?"
        ++ queryString userHandle limit := by
  have e1 : url.QueryEscape "posts_and_author_threads" = "posts_and_author_threads" := by decide
  simp only [fullURL, params_eq, Encode_params, queryString, url.QueryEscape_Itoa, e1,
    String.append_assoc]
  rfl

end bsky

namespace url

/-- A piece `key=value` whose value is escaped text is decoded to the key and the value. -/
theorem parsePiece_pair (k : List Char) (v : String) (kb : List UInt8)
    (hk : ∀ c ∈ k, c ≠ '=' ∧ c ≠ ';') (hu : unescape k = some kb) :
    parsePiece (k ++ '=' :: (QueryEscape v).data) = (some (kb, bytes v), false) := by
  have hsemi : ¬ ';' ∈ k ++ '=' :: (QueryEscape v).data := by
    intro hm
    simp only [List.mem_append, List.mem_cons] at hm
    rcases hm with hm | hm | hm
    · exact (hk _ hm).2 rfl
    · exact absurd hm (by decide)
    · exact (QueryEscape_plain v _ hm).2.2 rfl
  have hne : k ++ '=' :: (QueryEscape v).data ≠ [] := by simp
  have hcut := cut_append_sep '=' k (QueryEscape v).data (fun c hc => (hk c hc).1)
  have hv : unescape (QueryEscape v).data = some (bytes v) := unescape_escape (bytes v)
  simp only [parsePiece, if_neg hsemi, if_neg hne, hcut, hu, hv]

end url

namespace bsky

/-- Decoding the query string of the request gives back the three parameters. -/
theorem ParseQuery_queryString (userHandle : String) (limit : Int) :
    url.ParseQuery (queryString userHandle limit)
      = ([(url.bytes "actor", url.bytes userHandle),
          (url.bytes "filter", url.bytes "posts_and_author_threads"),
          (url.bytes "limit", url.bytes (strconv.Itoa limit))], false) := by
  have hdata : (queryString userHandle limit).data
      = ("actor".data ++ '=' :: (url.QueryEscape userHandle).data)
        ++ '&' :: (("filter".data ++ '=' :: (url.QueryEscape "posts_and_author_threads").data)
        ++ '&' :: ("limit".data ++ '=' :: (url.QueryEscape (strconv.Itoa limit)).data)) := by
    rw [url.QueryEscape_Itoa]
    simp only [queryString, String.data_append, List.append_assoc]
    rfl
  have h1 : ∀ c ∈ "actor".data ++ '=' :: (url.QueryEscape userHandle).data, c ≠ '&' := by
    intro c hc
    rcases List.mem_append.1 hc with hc | hc
    · exact (show ∀ c ∈ "actor".data, c ≠ '&' by decide) c hc
    · rcases List.mem_cons.1 hc with hc | hc
      · subst hc; decide
      · exact (url.QueryEscape_plain _ c hc).1
  have h2 : ∀ c ∈ "filter".data ++ '=' :: (url.QueryEscape "posts_and_author_threads").data,
      c ≠ '&' := by decide
  have h3 : ∀ c ∈ "limit".data ++ '=' :: (url.QueryEscape (strconv.Itoa limit)).data,
      c ≠ '&' := by
    intro c hc
    rcases List.mem_append.1 hc with hc | hc
    · exact (show ∀ c ∈ "limit".data, c ≠ '&' by decide) c hc
    · rcases List.mem_cons.1 hc with hc | hc
      · subst hc; decide
      · exact (url.QueryEscape_plain _ c hc).1
  have p1 := url.parsePiece_pair "actor".data userHandle (url.bytes "actor") (by decide)
    (by decide)
  have p2 := url.parsePiece_pair "filter".data "posts_and_author_threads" (url.bytes "filter")
    (by decide) (by decide)
  have p3 := url.parsePiece_pair "limit".data (strconv.Itoa limit) (url.bytes "limit")
    (by decide) (by decide)
  simp only [url.ParseQuery, hdata, url.pieces_append_amp _ _ h1, url.pieces_append_amp _ _ h2,
    url.pieces_of_no_amp _ (by simp) h3, List.map_cons, List.map_nil, p1, p2, p3,
    List.filterMap_cons, List.filterMap_nil, List.any_cons, List.any_nil, Bool.or_false]

end bsky

/-! ## Decoding failures -/

namespace json

theorem isError_map {α β : Type} (f : α → β) (r : Except UnmarshalTypeError α)
    (h : IsError r) : IsError (r.map f) := by
  obtain ⟨e, he⟩ := h
  exact ⟨e, by rw [he]; rfl⟩

/-- Storing the members of an object fails as soon as one member cannot be stored, whatever
was stored before it. -/
theorem foldlM_isError {α : Type} (store : α → String × JSON → Except UnmarshalTypeError α)
    (m : String × JSON) (hm : ∀ cur, IsError (store cur m)) :
    ∀ (ms : List (String × JSON)), m ∈ ms → ∀ cur, IsError (ms.foldlM store cur) := by
  intro ms
  induction ms with
  | nil => intro h; simp at h
  | cons x xs ih =>
    intro h cur
    rw [List.foldlM_cons]
    rcases List.mem_cons.1 h with h | h
    · subst h
      obtain ⟨e, he⟩ := hm cur
      exact ⟨e, by rw [he]; rfl⟩
    · cases hx : store cur x with
      | error e => exact ⟨e, rfl⟩
      | ok cur' => exact ih h cur'

theorem mapM_isError {α : Type} (f : JSON → Except UnmarshalTypeError α)
    (x : JSON) (hx : IsError (f x)) :
    ∀ (l : List JSON), x ∈ l → IsError (l.mapM f) := by
  intro l
  induction l with
  | nil => intro h; simp at h
  | cons y ys ih =>
    intro h
    rw [List.mapM_cons]
    rcases List.mem_cons.1 h with h | h
    · subst h
      obtain ⟨e, he⟩ := hx
      exact ⟨e, by rw [he]; rfl⟩
    · cases hy : f y with
      | error e => exact ⟨e, rfl⟩
      | ok b =>
        obtain ⟨e, he⟩ := ih h
        exact ⟨e, by rw [he]; rfl⟩

theorem decodeString_isError (field cur : String) (v : JSON) (h : mistyped v .string = true) :
    IsError (decodeString field cur v) := by
  cases v <;> first | exact ⟨_, rfl⟩ | simp [mistyped] at h

theorem decodeStringPtr_isError (field : String) (cur : Option String) (v : JSON)
    (h : mistyped v .string = true) : IsError (decodeStringPtr field cur v) := by
  cases v <;> first | exact ⟨_, rfl⟩ | simp [mistyped] at h

theorem decodeIntPtr_isError (field : String) (v : JSON) (h : mistyped v .number = true) :
    IsError (decodeIntPtr field v) := by
  cases v <;> first | exact ⟨_, rfl⟩ | simp [mistyped] at h

theorem decodeStruct_isError_of_mistyped {α : Type} (field : String)
    (store : α → String × JSON → Except UnmarshalTypeError α) (cur : α) (v : JSON)
    (h : mistyped v .object = true) : IsError (decodeStruct field store cur v) := by
  cases v <;> first | exact ⟨_, rfl⟩ | simp [mistyped] at h

theorem decodeFeed_isError_of_mistyped (field : String) (v : JSON)
    (h : mistyped v .array = true) : IsError (decodeFeed field v) := by
  cases v <;> first | exact ⟨_, rfl⟩ | simp [mistyped] at h

theorem authorWrong_isError (f1 f2 : String) (cur : Author) (v : JSON)
    (h : authorWrong v = true) : IsError (decodeStruct f1 (storeAuthor f2) cur v) := by
  cases v with
  | object ms =>
    simp only [authorWrong, fieldMistyped, Bool.or_eq_true, List.any_eq_true,
      Bool.decide_and, Bool.and_eq_true, decide_eq_true_eq, Bool.decide_eq_true] at h
    rcases h with ⟨m, hm, hk, ht⟩ | ⟨m, hm, hk, ht⟩
    · refine foldlM_isError _ m (fun c => ?_) ms hm cur
      obtain ⟨k, w⟩ := m
      simp only at hk ht
      subst hk
      exact isError_map _ _ (decodeString_isError _ _ w ht)
    · refine foldlM_isError _ m (fun c => ?_) ms hm cur
      obtain ⟨k, w⟩ := m
      simp only at hk ht
      subst hk
      exact isError_map _ _ (decodeStringPtr_isError _ _ w ht)
  | _ => simp [authorWrong] at h

theorem recordWrong_isError (f1 f2 : String) (cur : Record) (v : JSON)
    (h : recordWrong v = true) : IsError (decodeStruct f1 (storeRecord f2) cur v) := by
  cases v with
  | object ms =>
    simp only [recordWrong, fieldMistyped, Bool.or_eq_true, List.any_eq_true,
      Bool.decide_and, Bool.and_eq_true, decide_eq_true_eq, Bool.decide_eq_true] at h
    rcases h with ⟨m, hm, hk, ht⟩ | ⟨m, hm, hk, ht⟩
    · refine foldlM_isError _ m (fun c => ?_) ms hm cur
      obtain ⟨k, w⟩ := m
      simp only at hk ht
      subst hk
      exact isError_map _ _ (decodeString_isError _ _ w ht)
    · refine foldlM_isError _ m (fun c => ?_) ms hm cur
      obtain ⟨k, w⟩ := m
      simp only at hk ht
      subst hk
      exact isError_map _ _ (decodeString_isError _ _ w ht)
  | _ => simp [recordWrong] at h

theorem postWrong_isError (f1 f2 : String) (cur : Post) (v : JSON)
    (h : postWrong v = true) : IsError (decodeStruct f1 (storePost f2) cur v) := by
  cases v with
  | object ms =>
    simp only [postWrong, fieldMistyped, fieldHas, Bool.or_eq_true, List.any_eq_true,
      Bool.decide_and, Bool.and_eq_true, decide_eq_true_eq, Bool.decide_eq_true] at h
    rcases h with (((((((⟨m, hm, hk, ht⟩ | ⟨m, hm, hk, ht⟩) | ⟨m, hm, hk, ht⟩) |
      ⟨m, hm, hk, ht⟩) | ⟨m, hm, hk, ht⟩) | ⟨m, hm, hk, ht⟩) | ⟨m, hm, hk, ht⟩) |
      ⟨m, hm, hk, ht⟩) <;>
      refine foldlM_isError _ m (fun c => ?_) ms hm cur <;>
      obtain ⟨k, w⟩ := m <;>
      simp only at hk ht <;>
      subst hk
    · exact isError_map _ _ (decodeString_isError _ _ w ht)
    · exact isError_map _ _ (decodeStruct_isError_of_mistyped _ _ _ w ht)
    · exact isError_map _ _ (decodeStruct_isError_of_mistyped _ _ _ w ht)
    · exact isError_map _ _ (decodeIntPtr_isError _ w ht)
    · exact isError_map _ _ (decodeIntPtr_isError _ w ht)
    · exact isError_map _ _ (decodeIntPtr_isError _ w ht)
    · exact isError_map _ _ (authorWrong_isError _ _ _ w ht)
    · exact isError_map _ _ (recordWrong_isError _ _ _ w ht)
  | _ => simp [postWrong] at h

theorem itemWrong_isError (f1 f2 : String) (cur : FeedItem) (v : JSON)
    (h : itemWrong v = true) : IsError (decodeStruct f1 (storeItem f2) cur v) := by
  cases v with
  | object ms =>
    simp only [itemWrong, fieldMistyped, fieldHas, Bool.or_eq_true, List.any_eq_true,
      Bool.decide_and, Bool.and_eq_true, decide_eq_true_eq, Bool.decide_eq_true] at h
    rcases h with ⟨m, hm, hk, ht⟩ | ⟨m, hm, hk, ht⟩ <;>
      refine foldlM_isError _ m (fun c => ?_) ms hm cur <;>
      obtain ⟨k, w⟩ := m <;>
      simp only at hk ht <;>
      subst hk
    · exact isError_map _ _ (decodeStruct_isError_of_mistyped _ _ _ w ht)
    · exact isError_map _ _ (postWrong_isError _ _ _ w ht)
  | _ => simp [itemWrong] at h

theorem feedWrong_isError (field : String) (v : JSON) (h : feedWrong v = true) :
    IsError (decodeFeed field v) := by
  cases v with
  | array elems =>
    simp only [feedWrong, List.any_eq_true, Bool.or_eq_true] at h
    obtain ⟨x, hx, hw⟩ := h
    refine mapM_isError _ x ?_ elems hx
    rcases hw with hw | hw
    · exact decodeStruct_isError_of_mistyped _ _ _ x hw
    · exact itemWrong_isError _ _ _ x hw
  | _ => simp [feedWrong] at h

/-- A response body that has a field of the data model with a wrong JSON type is not decoded:
`Unmarshal` returns a type error. -/
theorem responseWrong_isError (j : JSON) (h : responseWrong j = true) :
    IsError (Unmarshal j) := by
  cases j with
  | object ms =>
    simp only [responseWrong, fieldMistyped, fieldHas, Bool.or_eq_true, List.any_eq_true,
      Bool.decide_and, Bool.and_eq_true, decide_eq_true_eq, Bool.decide_eq_true] at h
    rcases h with (⟨m, hm, hk, ht⟩ | ⟨m, hm, hk, ht⟩) | ⟨m, hm, hk, ht⟩ <;>
      refine foldlM_isError _ m (fun c => ?_) ms hm FeedResponse.zero <;>
      obtain ⟨k, w⟩ := m <;>
      simp only at hk ht <;>
      subst hk
    · exact isError_map _ _ (decodeFeed_isError_of_mistyped _ w ht)
    · exact isError_map _ _ (decodeStringPtr_isError _ _ w ht)
    · exact isError_map _ _ (feedWrong_isError _ w ht)
  | _ => simp [responseWrong] at h

end json

open bsky in
/-- Claim C9: when the response body has a field of the data model with a wrong JSON type (a
value that is neither null nor of the type the model asks for), `fetchUserPostsPublic` returns
the error "failed to parse response: " followed by the text of the decoder's type error and
writes nothing to standard output; `main`, called with arguments that reach the fetch, then
writes the single line "Error: <message>" to the error stream and exits with status 1. -/
theorem C9_wrong_type_is_reported (env : Env) (prog username numPostsStr : String)
    (numPosts status : Int) (body : json.JSON)
    (hu : username ≠ "") (hud : ¬ startsWithDash username)
    (hcd : ¬ startsWithDash numPostsStr)
    (hp : strconv.Atoi numPostsStr = .ok numPosts) (hn : 0 < numPosts)
    (hget : env.Get (fullURL username numPosts) = .ok ⟨status, .ok body⟩)
    (hw : json.responseWrong body = true) :
    ∃ e : json.UnmarshalTypeError,
      json.Unmarshal body = .error e
      ∧ fetchUserPostsPublic env username numPosts
          = ⟨[fullURL username numPosts], [],
              some ("failed to parse response: " ++ env.TypeErrorText e)⟩
      ∧ main env [prog, username, numPostsStr]
          = ⟨[], ["Error: " ++ ("failed to parse response: " ++ env.TypeErrorText e) ++ "\n"],
              [(username, numPosts)], [fullURL username numPosts], .status 1⟩ := by
  obtain ⟨e, he⟩ := json.responseWrong_isError body hw
  have hf : fetchUserPostsPublic env username numPosts
      = ⟨[fullURL username numPosts], [],
          some ("failed to parse response: " ++ env.TypeErrorText e)⟩ := by
    simp only [fetchUserPostsPublic, hget, json.Decode, he]
  refine ⟨e, he, hf, ?_⟩
  rw [main_valid env prog username numPostsStr numPosts hu hud hcd hp hn]
  simp only [fetchExit, hf]

open bsky in
/-- Claim C9 at two wrong bodies, `likeCount` given as a string and `feed` given as an object,
for the arguments `alice` and `5`. -/
theorem C9_wrong_type_is_reported_witness :
    (∃ e : json.UnmarshalTypeError,
      json.Unmarshal (.object [("feed", .array [.object [("post", .object
          [("likeCount", .string "42")])]])]) = .error e
      ∧ fetchUserPostsPublic (answeringEnv 200 (.ok (.object [("feed", .array [.object
          [("post", .object [("likeCount", .string "42")])]])]))) "alice" 5
          = ⟨[fullURL "alice" 5], [],
              some ("failed to parse response: " ++ (answeringEnv 200 (.ok (.object [("feed",
                .array [.object [("post", .object [("likeCount", .string "42")])]])]))).TypeErrorText
                  e)⟩
      ∧ main (answeringEnv 200 (.ok (.object [("feed", .array [.object
          [("post", .object [("likeCount", .string "42")])]])]))) ["bsky", "alice", "5"]
          = ⟨[], ["Error: " ++ ("failed to parse response: " ++ (answeringEnv 200 (.ok (.object
                [("feed", .array [.object [("post", .object [("likeCount",
                  .string "42")])]])]))).TypeErrorText e) ++ "\n"],
              [("alice", 5)], [fullURL "alice" 5], .status 1⟩)
    ∧ main (answeringEnv 200 (.ok (.object [("feed", .object [])]))) ["bsky", "alice", "5"]
        = ⟨[], ["Error: failed to parse response: json: cannot unmarshal object into Go struct field feed\n"],
            [("alice", 5)],
            ["https://public.api.bsky.app/xrpc/app.bsky.feed.getAuthorFeed?actor=alice&filter=posts_and_author_threads&limit=5"],
            .status 1⟩ :=
  ⟨C9_wrong_type_is_reported (answeringEnv 200 (.ok (.object [("feed", .array [.object
      [("post", .object [("likeCount", .string "42")])]])]))) "bsky" "alice" "5" 5 200
      (.object [("feed", .array [.object [("post", .object [("likeCount", .string "42")])]])])
      (by decide) (by decide) (by decide) (by decide) (by decide) rfl (by decide),
   by decide⟩

namespace json

theorem findField_response_none (key : String)
    (h : namesField key "feed" = false ∧ namesField key "cursor" = false) :
    findField ["feed", "cursor"] key = none := by
  obtain ⟨h1, h2⟩ := h
  simp only [namesField, Bool.decide_or, Bool.or_eq_false_iff, decide_eq_false_iff_not] at h1 h2
  have a1 : ¬ "feed" = key := fun e => h1.1 e.symm
  have a2 : ¬ "cursor" = key := fun e => h2.1 e.symm
  have b1 : ¬ foldName "feed" = foldName key := fun e => h1.2 e.symm
  have b2 : ¬ foldName "cursor" = foldName key := fun e => h2.2 e.symm
  simp [findField, List.find?, a1, a2, b1, b2]

/-- An object none of whose keys names the field `feed` or `cursor` leaves `feedResponse` at
its zero value. -/
theorem Unmarshal_unrelated (members : List (String × JSON))
    (h : ∀ m ∈ members, namesField m.1 "feed" = false ∧ namesField m.1 "cursor" = false) :
    Unmarshal (.object members) = .ok FeedResponse.zero := by
  have key : ∀ (ms : List (String × JSON)),
      (∀ m ∈ ms, namesField m.1 "feed" = false ∧ namesField m.1 "cursor" = false) →
      ∀ cur, ms.foldlM storeResponse cur = .ok cur := by
    intro ms
    induction ms with
    | nil => intro _ cur; rfl
    | cons x xs ih =>
      intro hx cur
      have h0 : storeResponse cur x = .ok cur := by
        simp only [storeResponse, findField_response_none x.1 (hx x (List.mem_cons_self _ _))]
      rw [List.foldlM_cons, h0]
      exact ih (fun m hm => hx m (List.mem_cons_of_mem _ hm)) cur
  exact key members h FeedResponse.zero

end json

open bsky in
/-- Claim C10 fails on the code at a body whose key differs from `feed` by case only: the
object with the single member "Feed", an array of one empty object, has neither a `feed` key
nor a `cursor` key, but the decoder stores it in the field `Feed`, and the output is the header
for one post followed by a block of empty fields, not "Found 0 posts". -/
theorem C10_counterexample_key_case :
    (∀ m ∈ [("Feed", json.JSON.array [.object []])], m.1 ≠ "feed" ∧ m.1 ≠ "cursor")
    ∧ fetchUserPostsPublic
        (answeringEnv 200 (.ok (.object [("Feed", .array [.object []])]))) "alice" 5
      = ⟨[fullURL "alice" 5],
          ["Found 1 posts for user alice:\n\n",
           "Post 1 ------------------------------------------------------------\n",
           "Author:  (@)\n", "Text: \n", "Created: \n", "\n"],
          none⟩
    ∧ (fetchUserPostsPublic
        (answeringEnv 200 (.ok (.object [("Feed", .array [.object []])]))) "alice" 5).stdout
      ≠ ["Found 0 posts for user alice:\n\n"] := by
  decide

open bsky in
/-- Claim C10, amended: for every handle, limit and status code, when the response body is a
JSON object none of whose keys names the field `feed` or `cursor` for the decoder (the key
equals neither name, also not up to case folding), `fetchUserPostsPublic` returns no error and
its whole output is the single write "Found 0 posts for user <handle>:" followed by an empty
line, the handle being the one it was called with; `main`, called with arguments that reach the
fetch, then exits with status 0 and writes nothing to the error stream. -/
theorem C10_unrelated_object_prints_no_posts (env : Env) (prog username numPostsStr : String)
    (numPosts status : Int) (members : List (String × json.JSON))
    (hkeys : ∀ m ∈ members,
      json.namesField m.1 "feed" = false ∧ json.namesField m.1 "cursor" = false)
    (hget : env.Get (fullURL username numPosts) = .ok ⟨status, .ok (.object members)⟩) :
    fetchUserPostsPublic env username numPosts
      = ⟨[fullURL username numPosts], ["Found 0 posts for user " ++ username ++ ":\n\n"], none⟩
    ∧ (username ≠ "" → ¬ startsWithDash username → ¬ startsWithDash numPostsStr →
        strconv.Atoi numPostsStr = .ok numPosts → 0 < numPosts →
        main env [prog, username, numPostsStr]
          = ⟨["Found 0 posts for user " ++ username ++ ":\n\n"], [], [(username, numPosts)],
              [fullURL username numPosts], .status 0⟩) := by
  have hf : fetchUserPostsPublic env username numPosts
      = ⟨[fullURL username numPosts], ["Found 0 posts for user " ++ username ++ ":\n\n"],
          none⟩ := by
    simp only [fetchUserPostsPublic, hget, json.Decode, json.Unmarshal_unrelated members hkeys]
    rfl
  refine ⟨hf, ?_⟩
  intro hu hud hcd hp hn
  rw [main_valid env prog username numPostsStr numPosts hu hud hcd hp hn]
  simp only [fetchExit, hf]

open bsky in
/-- Claim C10, amended, at the error object of the API answered with status 400, for the
arguments `alice` and `5`. -/
theorem C10_unrelated_object_prints_no_posts_witness :
    fetchUserPostsPublic
        (answeringEnv 400 (.ok (.object [("error", .string "InvalidRequest"),
          ("message", .string "Error: actor must be a valid did or a handle")]))) "alice" 5
      = ⟨[fullURL "alice" 5], ["Found 0 posts for user " ++ "alice" ++ ":\n\n"], none⟩
    ∧ main (answeringEnv 400 (.ok (.object [("error", .string "InvalidRequest"),
          ("message", .string "Error: actor must be a valid did or a handle")])))
        ["bsky", "alice", "5"]
      = ⟨["Found 0 posts for user " ++ "alice" ++ ":\n\n"], [], [("alice", 5)],
          [fullURL "alice" 5], .status 0⟩ :=
  ⟨(C10_unrelated_object_prints_no_posts
      (answeringEnv 400 (.ok (.object [("error", .string "InvalidRequest"),
        ("message", .string "Error: actor must be a valid did or a handle")])))
      "bsky" "alice" "5" 5 400 _ (by decide) rfl).1,
   (C10_unrelated_object_prints_no_posts
      (answeringEnv 400 (.ok (.object [("error", .string "InvalidRequest"),
        ("message", .string "Error: actor must be a valid did or a handle")])))
      "bsky" "alice" "5" 5 400 _ (by decide) rfl).2
      (by decide) (by decide) (by decide) (by decide) (by decide)⟩

namespace bsky

/-- Whatever the outcome, `fetchUserPostsPublic` requests the URL built from its arguments, and
only that one. -/
theorem fetch_requests (env : Env) (userHandle : String) (limit : Int) :
    (fetchUserPostsPublic env userHandle limit).requests = [fullURL userHandle limit] := by
  unfold fetchUserPostsPublic
  cases env.Get (fullURL userHandle limit) with
  | error e => rfl
  | ok resp =>
    simp only
    cases json.Decode env resp.Body <;> rfl

end bsky

open bsky in
/-- Claim C8: for every handle H and every positive limit n, `fetchUserPostsPublic` requests
exactly one URL, the fixed base followed by "?" and the query string
"actor=<escaped H>&filter=posts_and_author_threads&limit=<n in decimal digits>"; parsing that
query string gives back the three parameters in that order with the values H,
posts_and_author_threads and n, so the escaping of H is undone by decoding; and for
H = alice.example and n = 5 the query string is
"actor=alice.example&filter=posts_and_author_threads&limit=5". -/
theorem C8_request_url (env : Env) (userHandle : String) (limit : Int) (hpos : 0 < limit) :
    (fetchUserPostsPublic env userHandle limit).requests
      = ["https://public.api.bsky.app/xrpc/app.bsky.feed.getAuthorFeed" ++ "?"
          ++ ("actor=" ++ url.QueryEscape userHandle
              ++ "&filter=posts_and_author_threads&limit=" ++ strconv.Itoa limit)]
    ∧ strconv.Itoa limit = String.mk (Nat.toDigits 10 limit.toNat)
    ∧ url.ParseQuery ("actor=" ++ url.QueryEscape userHandle
          ++ "&filter=posts_and_author_threads&limit=" ++ strconv.Itoa limit)
        = ([(url.bytes "actor", url.bytes userHandle),
            (url.bytes "filter", url.bytes "posts_and_author_threads"),
            (url.bytes "limit", url.bytes (strconv.Itoa limit))], false)
    ∧ url.QueryUnescape (url.QueryEscape userHandle) = some (url.bytes userHandle)
    ∧ "actor=" ++ url.QueryEscape "alice.example"
          ++ "&filter=posts_and_author_threads&limit=" ++ strconv.Itoa 5
        = "actor=alice.example&filter=posts_and_author_threads&limit=5" := by
  refine ⟨?_, ?_, ParseQuery_queryString userHandle limit, url.unescape_escape _, by decide⟩
  · rw [fetch_requests, fullURL_eq]
    rfl
  · have h : ¬ limit < 0 := by omega
    simp [strconv.Itoa, h]

open bsky in
/-- Claim C8 at the handle `alice.example` and the limit 5, when the request is answered by
an empty feed. -/
theorem C8_request_url_witness :
    (0 : Int) < 5
    ∧ (fetchUserPostsPublic (answeringEnv 200 (.ok (.object [("feed", .array [])])))
        "alice.example" 5).requests
      = ["https://public.api.bsky.app/xrpc/app.bsky.feed.getAuthorFeed" ++ "?"
          ++ ("actor=" ++ url.QueryEscape "alice.example"
              ++ "&filter=posts_and_author_threads&limit=" ++ strconv.Itoa 5)] :=
  ⟨by decide,
   (C8_request_url (answeringEnv 200 (.ok (.object [("feed", .array [])])))
      "alice.example" 5 (by decide)).1⟩
